import Mathlib

/-!
Verification of the noname circuit writer (`src/circuit_writer/writer.rs`).

The development shallowly embeds the circuit-writer module: the writer state,
the wire/gate allocation primitives, and the statement/expression compiler.
Rust `HashMap`s are modelled as functions into `Option`, machine integers as
`Nat`, panics and fallible operations as `Option`/`Except` results.
Types that live in sibling modules of the repository (`var.rs`, `FnEnv`,
the type-checker oracle, the parser AST) are modelled from the spec where
noted; everything else is translated directly from `writer.rs`.
-/

namespace Noname

/-- Order of the Pasta base field used by the kimchi proof system; this is the
modulus of the compiler's `constants::Field` type. -/
def fieldPrime : Nat :=
  28948022309329048855892746252171976963363056481941560715954676764349967630337

/-- Prime field elements (`constants::Field`). -/
abbrev Field := ZMod fieldPrime

/-- Number of registers of one kimchi row (`constants::NUM_REGISTERS`). -/
def NUM_REGISTERS : Nat := 15

/-- Registers used by one half of a double generic gate
(kimchi `GENERIC_REGISTERS`). -/
def GENERIC_REGISTERS : Nat := 3

/-- Coefficients used by one half of a double generic gate
(kimchi `GENERIC_COEFFS`). -/
def GENERIC_COEFFS : Nat := 5

/-- Source span (`constants::Span`): start offset and length. -/
structure Span where
  start : Nat
  len : Nat
deriving DecidableEq

/-- Modelled from the spec: `CellVar` from `var.rs` (not under `src/`), a wire
`{ index, span }` (spec section 3). -/
structure CellVar where
  index : Nat
  span : Span
deriving DecidableEq

/-- Deferred `Value` of a wire (spec section 3; `var.rs`). -/
inductive Value where
  | Constant (f : Field)
  | LinearCombination (terms : List (Field × CellVar)) (cst : Field)
  | Mul (lhs rhs : CellVar)
  | External (name : String) (idx : Nat)
  | PublicOutput (cvar : Option CellVar)
deriving DecidableEq

/-- Modelled from the spec: `ConstOrCell` from `var.rs` (not under `src/`),
either a compile-time field value or a wire (spec section 3). -/
inductive ConstOrCell where
  | Const (f : Field)
  | Cell (c : CellVar)
deriving DecidableEq

/-- Modelled from the spec: `ConstOrCell::idx`, the wire index if the unit is a
wire (`pub_var.idx()` in `compile_main_function`). -/
def ConstOrCell.idx : ConstOrCell → Option Nat
  | .Cell c => some c.index
  | .Const _ => none

/-- Modelled from the spec: `Var` from `var.rs` (not under `src/`), an ordered
flattened sequence of `ConstOrCell` with a span (spec section 3). -/
structure Var where
  cvars : List ConstOrCell
  span : Span
deriving DecidableEq

/-- Modelled from the spec: `Var::new_constant`, a one-element constant `Var`. -/
def Var.new_constant (c : Field) (span : Span) : Var :=
  ⟨[ConstOrCell.Const c], span⟩

/-- Modelled from the spec: `VarOrRef` from `var.rs` (not under `src/`); either
a concrete `Var` or a reference to a sub-range of a named scope variable
(spec sections 3 and 9). -/
inductive VarOrRef where
  | Var (var : Var)
  | Ref (var_name : String) (start : Nat) (len : Nat)
deriving DecidableEq

/-- Modelled from the spec: `VarOrRef::len`, the flattened length. -/
def VarOrRef.len : VarOrRef → Nat
  | .Var v => v.cvars.length
  | .Ref _ _ len => len

/-- Modelled from the spec: `VarOrRef::narrow`, restriction to the sub-range
`[start, start+len)` (spec sections 4.5 and 9: references narrow by offset
arithmetic, concrete vars by a range copy). -/
def VarOrRef.narrow : VarOrRef → Nat → Nat → VarOrRef
  | .Var v, start, len => .Var ⟨(v.cvars.drop start).take len, v.span⟩
  | .Ref name start0 _, start, len => .Ref name (start0 + start) len

/-- Modelled from the spec: `VarOrRef::constant`, the field value when the
variable is a single compile-time constant (spec section 4.5: array indices
must evaluate to compile-time constants). -/
def VarOrRef.constant : VarOrRef → Option Field
  | .Var v =>
    match v.cvars with
    | [ConstOrCell.Const c] => some c
    | _ => none
  | .Ref _ _ _ => none

/-- A gate's wire slot position (`writer.rs` `Cell`). -/
structure Cell where
  row : Nat
  col : Nat
deriving DecidableEq

/-- Wiring entry of one wire (`writer.rs` `Wiring`). -/
inductive Wiring where
  | NotWired (cell : Cell)
  | Wired (cells : List (Cell × Span))
deriving DecidableEq

/-- Gate kind (`writer.rs` `GateKind`). -/
inductive GateKind where
  | Zero
  | DoubleGeneric
  | Poseidon
deriving DecidableEq

/-- One emitted circuit row (`writer.rs` `Gate`). The wire slots of a row are
kept separately in `rows_of_vars`, as in the source. -/
structure Gate where
  typ : GateKind
  coeffs : List Field
  span : Span
  note : String
deriving DecidableEq

/-- A buffered half-width generic gate (`writer.rs` `PendingGate`). -/
structure PendingGate where
  label : String
  coeffs : List Field
  vars : List (Option CellVar)
  span : Span
deriving DecidableEq

/-- User-facing error kinds of the circuit writer (`error.rs`, spec section 7);
only the variants raised by the embedded code are listed. -/
inductive ErrorKind where
  | CannotComputeExpression
  | MissingReturn
  | UnexpectedReturn
  | ConstantInOutput
  | UndefinedModule (name : String)
  | UndefinedFunction (name : String)
  | RecursiveMain
  | NotAStaticMethod
  | CannotConvertToField (raw : String)
  | ArrayIndexOutOfBounds (idx : Nat) (bound : Nat)
  | ExpectedConstant
deriving DecidableEq

/-- Failure of a compiler operation: either a user error with its span
(Rust `Err(Error::new(kind, span))`) or a panic (`panic!`, `assert!`,
`unwrap`/`expect`). -/
inductive CompileError where
  | user (kind : ErrorKind) (span : Span)
  | panicked (msg : String)
deriving DecidableEq

/-- Type of an expression as reported by the type checker
(`parser::TyKind`). -/
inductive TyKind where
  | Field
  | Bool
  | Array (elem : TyKind) (len : Nat)
  | Custom (module : Option String) (name : String)
  | BigInt
deriving DecidableEq

/-- Modelled from the spec: struct metadata exposed by the type checker
(spec section 6: field lists with types in declaration order). -/
structure StructInfo where
  fields : List (String × TyKind)

/-- Expression AST (`parser::ExprKind` with the span of `parser::Expr` folded
into each constructor). Only the variants whose compilation is local to
`writer.rs` are embedded; the remaining variants (calls, conditionals, binary
operations, assignment) delegate to builtin-operation modules that are outside
the embedded source. -/
inductive Expr where
  | BigInt (raw : String) (span : Span)
  | Bool (b : Bool) (span : Span)
  | Variable (module : Option String) (name : String) (span : Span)
  | ArrayAccess (array idx : Expr) (span : Span)
  | FieldAccess (lhs : Expr) (field : String) (span : Span)
deriving DecidableEq

/-- Span of an expression (`Expr::span`). -/
def Expr.span : Expr → Span
  | .BigInt _ sp => sp
  | .Bool _ sp => sp
  | .Variable _ _ sp => sp
  | .ArrayAccess _ _ sp => sp
  | .FieldAccess _ _ sp => sp

/-- Modelled from the spec: the read-only type-checker oracle (spec section 6:
per-expression resolved type, size-of-type function, struct metadata). -/
structure TypeChecker where
  expr_type : Expr → Option TyKind
  size_of : TyKind → Nat
  struct_infos : String → Option StructInfo

/-- Scope binding unit (`VarInfo`: value, mutability, optional type). -/
structure VarInfo where
  var : Var
  mutable : Bool
  typ : Option TyKind

/-- Modelled from the spec: the lexical scope `FnEnv` (spec sections 3 and
4.1), a stack of name-to-`VarInfo` frames, innermost frame first. -/
structure FnEnv where
  frames : List (List (String × VarInfo))

/-- Lookup in a single frame, first binding wins. -/
def lookupVar : List (String × VarInfo) → String → Option VarInfo
  | [], _ => none
  | (n, vi) :: rest, name => if n = name then some vi else lookupVar rest name

/-- Lookup across frames, innermost to outermost (spec section 4.1). -/
def lookupFrames : List (List (String × VarInfo)) → String → Option VarInfo
  | [], _ => none
  | f :: rest, name =>
    match lookupVar f name with
    | some vi => some vi
    | none => lookupFrames rest name

/-- Modelled from the spec: `FnEnv::new`, a fresh environment seeded only with
the named constants (spec section 4.1). -/
def FnEnv.new (constants : List (String × VarInfo)) : FnEnv :=
  ⟨[constants]⟩

/-- Modelled from the spec: `FnEnv::nest` pushes a scope frame. -/
def FnEnv.nest (env : FnEnv) : FnEnv :=
  ⟨[] :: env.frames⟩

/-- Modelled from the spec: `FnEnv::pop` pops the innermost scope frame. -/
def FnEnv.pop (env : FnEnv) : FnEnv :=
  ⟨env.frames.tail⟩

/-- Modelled from the spec: `FnEnv::get_var`; absence is an internal
inconsistency, not a user error (spec section 4.1). -/
def FnEnv.get_var (env : FnEnv) (name : String) : Except CompileError VarInfo :=
  match lookupFrames env.frames name with
  | some vi => .ok vi
  | none => .error (.panicked "get_var: variable not found")

/-- Modelled from the spec: `FnEnv::add_var` binds a name in the innermost
frame and fails hard if the name exists anywhere in the active stack
(shadowing forbidden, spec sections 3 and 4.1). -/
def FnEnv.add_var (env : FnEnv) (name : String) (vi : VarInfo) :
    Except CompileError FnEnv :=
  if (lookupFrames env.frames name).isSome then
    .error (.panicked "add_var: variable already exists")
  else
    match env.frames with
    | [] => .error (.panicked "add_var: no active scope")
    | f :: rest => .ok ⟨((name, vi) :: f) :: rest⟩

/-- Modelled from the spec: `VarOrRef::from_var_info`; only named mutable
variables produce references (spec section 3). -/
def VarOrRef.from_var_info (name : String) (vi : VarInfo) : VarOrRef :=
  if vi.mutable then .Ref name 0 vi.var.cvars.length else .Var vi.var

/-- Modelled from the spec: `VarOrRef::value`, resolution of a reference back
to a scope lookup plus range copy (spec section 9). -/
def VarOrRef.value (vor : VarOrRef) (env : FnEnv) :
    Except CompileError Noname.Var :=
  match vor with
  | .Var v => .ok v
  | .Ref name start len => do
    let vi ← env.get_var name
    .ok ⟨(vi.var.cvars.drop start).take len, vi.var.span⟩

/-- Modelled from the spec: `syntax::is_type` (not under `src/`); a bare type
name, written with a leading uppercase letter. -/
def is_type (name : String) : Bool :=
  name.front.isUpper

/-- Modelled from the spec: the parser's compile-time loop `Range`
(spec section 4.4: a compile-time bounded integer sequence). -/
structure RangeT where
  start : Nat
  stop : Nat

/-- Modelled from the spec: `Range::range()`, the integers
`start, start+1, ..., stop-1`. -/
def RangeT.range (r : RangeT) : List Nat :=
  List.range' r.start (r.stop - r.start)

/-- Statement AST (`parser::StmtKind` with the statement span folded into each
constructor). -/
inductive Stmt where
  | Assign (mutable : Bool) (lhs : String) (rhs : Expr) (span : Span)
  | ForLoop (var : String) (varSpan : Span) (range : RangeT)
      (body : List Stmt) (span : Span)
  | ExprStmt (e : Expr) (span : Span)
  | Return (e : Expr) (span : Span)
  | Comment (text : String) (span : Span)

/-- Signature of a function; only the presence and span of the declared return
type matter to `compile_main_function`. -/
structure FunctionSig where
  return_type : Option Span

/-- The compiled `main` function: signature and body block. -/
structure MainFunction where
  sig : FunctionSig
  body : List Stmt

/-- The circuit-writer state (`CircuitWriter`); maps are modelled as functions
into `Option`. The `source` text and `main` signature fields, which the
embedded operations never read, are omitted. -/
structure CircuitWriter where
  typed : TypeChecker
  constants : List (String × VarInfo)
  next_variable : Nat
  witness_vars : Nat → Option Value
  gates : List Gate
  rows_of_vars : List (List (Option CellVar))
  wiring : Nat → Option Wiring
  cached_constants : Field → Option CellVar
  public_input_size : Nat
  public_output : Option Var
  private_input_indices : List Nat
  double_generic_gate_optimization : Bool
  pending_generic_gate : Option PendingGate
  finalized : Bool

/-- The freshly constructed writer (`CircuitWriter::new` plus the `Default`
fields): everything empty, the coalescing optimization off. -/
def CircuitWriter.init (typed : TypeChecker) : CircuitWriter where
  typed := typed
  constants := []
  next_variable := 0
  witness_vars := fun _ => none
  gates := []
  rows_of_vars := []
  wiring := fun _ => none
  cached_constants := fun _ => none
  public_input_size := 0
  public_output := none
  private_input_indices := []
  double_generic_gate_optimization := false
  pending_generic_gate := none
  finalized := false

/-- HashMap insert on the wire-to-Value mapping. -/
def insertWitnessVar (wv : Nat → Option Value) (k : Nat) (v : Value) :
    Nat → Option Value :=
  fun i => if i = k then some v else wv i

/-- Wire allocation (`new_internal_var`): returns a `CellVar` carrying the
current `next_variable`, increments the counter and binds the index to `val`
in `witness_vars`. -/
def CircuitWriter.new_internal_var (s : CircuitWriter) (val : Value)
    (span : Span) : CellVar × CircuitWriter :=
  let var : CellVar := ⟨s.next_variable, span⟩
  (var, { s with
    next_variable := s.next_variable + 1,
    witness_vars := insertWitnessVar s.witness_vars var.index val })

/-- One step of the wiring-table update of `add_gate`: the effect of recording
cell `c` against an existing entry (`entry().and_modify().or_insert()`). -/
def cellStep (entry : Option Wiring) (c : Cell) (vspan gspan : Span) : Wiring :=
  match entry with
  | none => .NotWired c
  | some (.NotWired cell) => .Wired [(cell, vspan), (c, gspan)]
  | some (.Wired cells) => .Wired (cells ++ [(c, gspan)])

/-- Recording one non-empty slot in the wiring table (`add_gate`'s loop
body). -/
def wireCell (w : Nat → Option Wiring) (var : CellVar) (c : Cell)
    (gspan : Span) : Nat → Option Wiring :=
  fun i =>
    if i = var.index then some (cellStep (w var.index) c var.span gspan) else w i

/-- The wiring loop of `add_gate` over the columns of a new row; `col` is the
running column index of the `enumerate()`. -/
def wireRowAux (row : Nat) (gspan : Span) :
    Nat → List (Option CellVar) → (Nat → Option Wiring) → Nat → Option Wiring
  | _, [], w => w
  | col, none :: rest, w => wireRowAux row gspan (col + 1) rest w
  | col, some var :: rest, w =>
    wireRowAux row gspan (col + 1) rest (wireCell w var ⟨row, col⟩ gspan)

/-- The wiring update performed by `add_gate` for a whole row. -/
def wireRow (w : Nat → Option Wiring) (row : Nat)
    (vars : List (Option CellVar)) (gspan : Span) : Nat → Option Wiring :=
  wireRowAux row gspan 0 vars w

/-- Gate emission (`add_gate`): asserts the register-width bounds, appends the
wire slots to `rows_of_vars` and the gate to `gates`, and records every
non-empty slot in the wiring table. A violated assertion is a panic, modelled
as `none`. -/
def CircuitWriter.add_gate (s : CircuitWriter) (note : String) (typ : GateKind)
    (vars : List (Option CellVar)) (coeffs : List Field) (span : Span) :
    Option CircuitWriter :=
  if coeffs.length ≤ NUM_REGISTERS ∧ vars.length ≤ NUM_REGISTERS then
    let row := s.gates.length
    some { s with
      rows_of_vars := s.rows_of_vars ++ [vars],
      gates := s.gates ++ [{ typ := typ, coeffs := coeffs, span := span, note := note }],
      wiring := wireRow s.wiring row vars span }
  else
    none

/-- Generic-gate emission (`add_generic_gate`): right-pads the coefficients to
`GENERIC_COEFFS` with zeros and the wire slots to `GENERIC_REGISTERS` with
empty slots (`checked_sub().unwrap()` panics when the inputs are wider); with
the coalescing optimization off it adds one gate, otherwise it either pairs
with the pending half-row or queues itself. -/
def CircuitWriter.add_generic_gate (s : CircuitWriter) (label : String)
    (vars : List (Option CellVar)) (coeffs : List Field) (span : Span) :
    Option CircuitWriter :=
  if coeffs.length ≤ GENERIC_COEFFS ∧ vars.length ≤ GENERIC_REGISTERS then
    let coeffs := coeffs ++ List.replicate (GENERIC_COEFFS - coeffs.length) 0
    let vars := vars ++ List.replicate (GENERIC_REGISTERS - vars.length) none
    if !s.double_generic_gate_optimization then
      s.add_gate label GateKind.DoubleGeneric vars coeffs span
    else
      match s.pending_generic_gate with
      | some generic_gate =>
        { s with pending_generic_gate := none }.add_gate label
          GateKind.DoubleGeneric (vars ++ generic_gate.vars)
          (coeffs ++ generic_gate.coeffs) span
      | none =>
        some { s with pending_generic_gate := some ⟨label, coeffs, vars, span⟩ }
  else
    none

/-- Constant wires (`add_constant`): returns the memoized wire when the value
is cached; otherwise allocates a fresh wire, caches it, and emits one generic
gate with coefficients `[1, 0, 0, 0, -value]` on that wire. -/
def CircuitWriter.add_constant (s : CircuitWriter) (label : Option String)
    (value : Field) (span : Span) : Option (CellVar × CircuitWriter) :=
  match s.cached_constants value with
  | some cvar => some (cvar, s)
  | none =>
    let (var, s) := s.new_internal_var (Value.Constant value) span
    let s := { s with cached_constants :=
      fun f => if f = value then some var else s.cached_constants f }
    match s.add_generic_gate (label.getD "hardcode a constant") [some var]
        [1, 0, 0, 0, -value] span with
    | some s => some (var, s)
    | none => none

/-- The loop body of `add_public_inputs` iterated over the index list
`0..num`: per index, allocate an `External` wire and add its pass-through
gate (a direct `add_gate` call with coefficient list `[1]`). -/
def pubInputsLoop (name : String) (span : Span) :
    List Nat → CircuitWriter → Option (List ConstOrCell × CircuitWriter)
  | [], s => some ([], s)
  | idx :: rest, s =>
    let (cvar, s) := s.new_internal_var (Value.External name idx) span
    match s.add_gate "add public input" GateKind.DoubleGeneric [some cvar]
        [1] span with
    | none => none
    | some s =>
      match pubInputsLoop name span rest s with
      | none => none
      | some (cvars, s) => some (ConstOrCell.Cell cvar :: cvars, s)

/-- Public-input allocation (`add_public_inputs`): `num` fresh `External`
wires with ascending indices, one pass-through gate each, and
`public_input_size` increased by `num`. -/
def CircuitWriter.add_public_inputs (s : CircuitWriter) (name : String)
    (num : Nat) (span : Span) : Option (Var × CircuitWriter) :=
  match pubInputsLoop name span (List.range num) s with
  | none => none
  | some (cvars, s) =>
    some (⟨cvars, span⟩, { s with public_input_size := s.public_input_size + num })

/-- The loop body of `add_public_outputs` iterated `num` times: per iteration,
allocate a `PublicOutput(None)` wire and add its pass-through generic gate. -/
def pubOutputsLoop (span : Span) :
    Nat → CircuitWriter → Option (List ConstOrCell × CircuitWriter)
  | 0, s => some ([], s)
  | n + 1, s =>
    let (cvar, s) := s.new_internal_var (Value.PublicOutput none) span
    match s.add_generic_gate "add public output" [some cvar] [1] span with
    | none => none
    | some s =>
      match pubOutputsLoop span n s with
      | none => none
      | some (cvars, s) => some (ConstOrCell.Cell cvar :: cvars, s)

/-- Public-output allocation (`add_public_outputs`): asserts that no public
output was declared yet, allocates `num` `PublicOutput(None)` wires with
pass-through generic gates, increases `public_input_size` by `num` and stores
the resulting `Var` as the public output. -/
def CircuitWriter.add_public_outputs (s : CircuitWriter) (num : Nat)
    (span : Span) : Option CircuitWriter :=
  if s.public_output.isSome then none
  else
    match pubOutputsLoop span num s with
    | none => none
    | some (cvars, s) =>
      some { s with
        public_input_size := s.public_input_size + num,
        public_output := some ⟨cvars, span⟩ }

/-- The loop body of `add_private_inputs` over the index list `0..num`: per
index, allocate an `External` wire and record its index; no gate is added. -/
def privInputsLoop (name : String) (span : Span) :
    List Nat → CircuitWriter → List ConstOrCell × CircuitWriter
  | [], s => ([], s)
  | idx :: rest, s =>
    let (cvar, s) := s.new_internal_var (Value.External name idx) span
    let s := { s with
      private_input_indices := s.private_input_indices ++ [cvar.index] }
    let (cvars, s) := privInputsLoop name span rest s
    (ConstOrCell.Cell cvar :: cvars, s)

/-- Private-input allocation (`add_private_inputs`): `num` fresh `External`
wires whose indices are recorded in `private_input_indices`; no gates. -/
def CircuitWriter.add_private_inputs (s : CircuitWriter) (name : String)
    (num : Nat) (span : Span) : Var × CircuitWriter :=
  let (cvars, s) := privInputsLoop name span (List.range num) s
  (⟨cvars, span⟩, s)

/-- The largest `usize` value on the 64-bit targets the compiler supports;
bound of the `try_into().unwrap()` conversion of a constant array index. -/
def USIZE_MAX : Nat := 2 ^ 64 - 1

/-- Digit-by-digit accumulation of a decimal numeral. -/
def parseDecimalAux : List Char → Nat → Option Nat
  | [], acc => some acc
  | c :: rest, acc =>
    if c.isDigit then parseDecimalAux rest (acc * 10 + (c.toNat - '0'.toNat))
    else none

/-- Modelled from the spec: the decimal parse
`BigUint::from_str_radix(b, 10)` of an integer literal (the `num_bigint`
dependency); unbounded decimal, failing on an empty or non-digit string. -/
def parseDecimal (s : String) : Option Nat :=
  match s.data with
  | [] => none
  | l => parseDecimalAux l 0

/-- The struct-field offset loop of the `FieldAccess` branch of
`compute_expr`: walk the declared fields in order, accumulating `start` until
the field matches (then `len` is its flattened size and the walk breaks); a
missing field leaves `len = 0` and `start` equal to the sum of all field
sizes. -/
def field_range (size_of : TyKind → Nat) (target : String) :
    List (String × TyKind) → Nat × Nat
  | [] => (0, 0)
  | (field, field_typ) :: rest =>
    if field = target then (0, size_of field_typ)
    else
      let (start, len) := field_range size_of target rest
      (size_of field_typ + start, len)

/-- Expression evaluation (`compute_expr`), restricted to the embedded
`ExprKind` variants; none of these variants mutates the scope (only the
omitted `Assignment` variant does), so `fn_env` is read-only here, and the
writer state is threaded unchanged. -/
def CircuitWriter.compute_expr (s : CircuitWriter) (fn_env : FnEnv) :
    Expr → Except CompileError (Option VarOrRef × CircuitWriter)
  | .BigInt raw span =>
    match parseDecimal raw with
    | none => .error (.panicked "failed to parse number.")
    | some n =>
      if n < fieldPrime then
        .ok (some (VarOrRef.Var (Var.new_constant (n : Field) span)), s)
      else
        .error (.user (.CannotConvertToField raw) span)
  | .Bool b span =>
    let value : Field := if b then 1 else 0
    .ok (some (VarOrRef.Var (Var.new_constant value span)), s)
  | .Variable module name _span =>
    if module.isSome then
      .error (.panicked "accessing module variables not supported yet")
    else if is_type name then
      .ok (none, s)
    else
      match fn_env.get_var name with
      | .error e => .error e
      | .ok var_info => .ok (some (VarOrRef.from_var_info name var_info), s)
  | .ArrayAccess array idx span =>
    match s.compute_expr fn_env array with
    | .error e => .error e
    | .ok (none, _) => .error (.panicked "array access on non-array")
    | .ok (some var, s) =>
      match s.compute_expr fn_env idx with
      | .error e => .error e
      | .ok (idx_res, s) =>
        match idx_res with
        | none => .error (.user .CannotComputeExpression span)
        | some idx_var =>
          match idx_var.constant with
          | none => .error (.user .ExpectedConstant span)
          | some c =>
            -- Field → BigUint (`c.val`) → usize: `idx.try_into().unwrap()`
            -- panics when the constant does not fit in a 64-bit usize.
            if USIZE_MAX < c.val then
              .error (.panicked "called Option::unwrap() on a None value")
            else
            let idxN : Nat := c.val
            match s.typed.expr_type array with
            | none => .error (.panicked "cannot find type of array")
            | some (TyKind.Array ty array_len) =>
              if array_len ≤ idxN then
                -- `*array_len as usize - 1` underflows for a zero-length
                -- array type: a checked-arithmetic panic.
                if array_len = 0 then
                  .error (.panicked "attempt to subtract with overflow")
                else
                  .error (.user (.ArrayIndexOutOfBounds idxN (array_len - 1)) span)
              else
                let len := s.typed.size_of ty
                let start := idxN * len
                if var.len ≤ start ∨ var.len < start + len then
                  .error (.user (.ArrayIndexOutOfBounds start var.len) span)
                else
                  .ok (some (var.narrow start len), s)
            | some _ => .error (.panicked "expected array")
  | .FieldAccess lhs field _span =>
    match s.compute_expr fn_env lhs with
    | .error e => .error e
    | .ok (lhs_res, s) =>
      match lhs_res with
      | none => .error (.user .CannotComputeExpression lhs.span)
      | some lhs_var =>
        match s.typed.expr_type lhs with
        | none => .error (.user .CannotComputeExpression lhs.span)
        | some (TyKind.Custom _ name) =>
          match s.typed.struct_infos name with
          | none => .error (.panicked "struct info not found for custom struct")
          | some struct_info =>
            let (start, len) := field_range s.typed.size_of field struct_info.fields
            .ok (some (lhs_var.narrow start len), s)
        | some _ =>
          .error (.panicked "could not figure out struct implementing that method call")

mutual

/-- Statement compilation (`compile_stmt`); returns the optional value a
`Return` statement propagates, together with the threaded writer state and
scope. -/
def CircuitWriter.compile_stmt (s : CircuitWriter) (fn_env : FnEnv) :
    Stmt → Except CompileError (Option VarOrRef × CircuitWriter × FnEnv)
  | .Assign mutable lhs rhs span =>
    match s.compute_expr fn_env rhs with
    | .error e => .error e
    | .ok (rhs_res, s) =>
      match rhs_res with
      | none => .error (.user .CannotComputeExpression span)
      | some rhs_var =>
        match rhs_var.value fn_env with
        | .error e => .error e
        | .ok rhs_var =>
          let typ := s.typed.expr_type rhs
          match fn_env.add_var lhs ⟨rhs_var, mutable, typ⟩ with
          | .error e => .error e
          | .ok fn_env => .ok (none, s, fn_env)
  | .ForLoop var varSpan range body _span =>
    match CircuitWriter.compile_for_loop var varSpan range.range body s fn_env with
    | .error e => .error e
    | .ok (s, fn_env) => .ok (none, s, fn_env)
  | .ExprStmt e _span =>
    match s.compute_expr fn_env e with
    | .error e => .error e
    | .ok (some _, _) => .error (.panicked "assert: var.is_none()")
    | .ok (none, s) => .ok (none, s, fn_env)
  | .Return e span =>
    match s.compute_expr fn_env e with
    | .error e => .error e
    | .ok (res, s) =>
      match res with
      | none => .error (.user .CannotComputeExpression span)
      | some var => .ok (some var, s, fn_env)
  | .Comment _ _ => .ok (none, s, fn_env)
termination_by stmt => (sizeOf stmt, 0)

/-- The unrolled `for` loop of `compile_stmt` (`for ii in range.range()`):
each iteration nests a scope, binds the loop variable to the iteration's
field constant (immutable, of type `Field`), compiles the body block and pops
a scope frame. -/
def CircuitWriter.compile_for_loop (var : String) (varSpan : Span) :
    List Nat → List Stmt → CircuitWriter → FnEnv →
    Except CompileError (CircuitWriter × FnEnv)
  | [], _body, s, fn_env => .ok (s, fn_env)
  | ii :: rest, body, s, fn_env =>
    let fn_env := fn_env.nest
    let cst_var := Var.new_constant (ii : Field) varSpan
    match fn_env.add_var var ⟨cst_var, false, some TyKind.Field⟩ with
    | .error e => .error e
    | .ok fn_env =>
      match CircuitWriter.compile_block s fn_env body with
      | .error e => .error e
      | .ok (_, s, fn_env) =>
        CircuitWriter.compile_for_loop var varSpan rest body s fn_env.pop
termination_by iters body _s _fn_env => (sizeOf body, iters.length + 2)

/-- The statement loop of `compile_block`: statements run in order; the first
statement that yields a value resolves it to a concrete `Var` and returns it
immediately (skipping the rest of the block and the final scope pop). -/
def CircuitWriter.compile_stmts (s : CircuitWriter) (fn_env : FnEnv) :
    List Stmt → Except CompileError (Option Var × CircuitWriter × FnEnv)
  | [] => .ok (none, s, fn_env)
  | stmt :: rest =>
    match s.compile_stmt fn_env stmt with
    | .error e => .error e
    | .ok (res, s, fn_env) =>
      match res with
      | some var =>
        match var.value fn_env with
        | .error e => .error e
        | .ok var => .ok (some var, s, fn_env)
      | none => CircuitWriter.compile_stmts s fn_env rest
termination_by stmts => (sizeOf stmts, 0)

/-- Block compilation (`compile_block`): nests a scope, runs the statements,
and pops the scope only when no statement returned a value. -/
def CircuitWriter.compile_block (s : CircuitWriter) (fn_env : FnEnv)
    (stmts : List Stmt) : Except CompileError (Option Var × CircuitWriter × FnEnv) :=
  match CircuitWriter.compile_stmts s fn_env.nest stmts with
  | .error e => .error e
  | .ok (res, s, fn_env) =>
    match res with
    | some var => .ok (some var, s, fn_env)
    | none => .ok (none, s, fn_env.pop)
termination_by (sizeOf stmts, 1)

end

/-- The constant check of `compile_main_function` on the returned value: walk
the returned components in order collecting wires; the first compile-time
constant is a `ConstantInOutput` error. -/
def check_no_constants (span : Span) :
    List ConstOrCell → Except CompileError (List CellVar)
  | [] => .ok []
  | ConstOrCell.Cell c :: rest =>
    match check_no_constants span rest with
    | .error e => .error e
    | .ok cells => .ok (c :: cells)
  | ConstOrCell.Const _ :: _ => .error (.user .ConstantInOutput span)

/-- The public-output substitution loop of `compile_main_function`: for each
`(public-output component, returned wire)` pair, replace the component's
`Value` with `PublicOutput(Some(wire))`; a constant component
(`pub_var.idx().unwrap()`) or a previously unbound index
(`assert!(prev.is_some())`) is a panic. -/
def bind_public_outputs (wv : Nat → Option Value) :
    List (ConstOrCell × CellVar) → Except CompileError (Nat → Option Value)
  | [] => .ok wv
  | (pub_var, ret_var) :: rest =>
    match pub_var.idx with
    | none => .error (.panicked "pub_var.idx().unwrap()")
    | some var_idx =>
      let prev := wv var_idx
      let wv := insertWitnessVar wv var_idx (Value.PublicOutput (some ret_var))
      if prev.isSome then bind_public_outputs wv rest
      else .error (.panicked "assert: prev.is_some()")

/-- Main-function compilation (`compile_main_function`): compile the body
block, then check the returned value against the declared return type; when
both are present, forbid constants in the output and substitute the returned
wires into the pre-allocated public-output `Value`s, in order and 1:1. -/
def CircuitWriter.compile_main_function (s : CircuitWriter) (fn_env : FnEnv)
    (function : MainFunction) : Except CompileError (CircuitWriter × FnEnv) :=
  match s.compile_block fn_env function.body with
  | .error e => .error e
  | .ok (returned, s, fn_env) =>
    match function.sig.return_type, returned with
    | none, none => .ok (s, fn_env)
    | some expected, none => .error (.user .MissingReturn expected)
    | none, some returned => .error (.user .UnexpectedReturn returned.span)
    | some _, some returned =>
      match check_no_constants returned.span returned.cvars with
      | .error e => .error e
      | .ok returned_cells =>
        match s.public_output with
        | none => .error (.panicked "bug in the compiler: missing public output")
        | some public_output =>
          match bind_public_outputs s.witness_vars
              (public_output.cvars.zip returned_cells) with
          | .error e => .error e
          | .ok wv => .ok ({ s with witness_vars := wv }, fn_env)

/-!
Helper lemmas about the allocation and gate primitives.
-/

/-- A trivial type-checker oracle, used to instantiate concrete writers. -/
def emptyTC : TypeChecker :=
  ⟨fun _ => none, fun _ => 0, fun _ => none⟩

/-- A zero span for concrete instantiations. -/
def sp0 : Span := ⟨0, 0⟩

lemma add_gate_ok (s : CircuitWriter) (note : String) (typ : GateKind)
    (vars : List (Option CellVar)) (coeffs : List Field) (span : Span)
    (hc : coeffs.length ≤ NUM_REGISTERS) (hv : vars.length ≤ NUM_REGISTERS) :
    s.add_gate note typ vars coeffs span = some { s with
      rows_of_vars := s.rows_of_vars ++ [vars],
      gates := s.gates ++ [{ typ := typ, coeffs := coeffs, span := span, note := note }],
      wiring := wireRow s.wiring s.gates.length vars span } := by
  simp [CircuitWriter.add_gate, hc, hv]

lemma add_generic_gate_flag_off (s : CircuitWriter) (label : String)
    (vars : List (Option CellVar)) (coeffs : List Field) (span : Span)
    (hflag : s.double_generic_gate_optimization = false)
    (hc : coeffs.length ≤ GENERIC_COEFFS) (hv : vars.length ≤ GENERIC_REGISTERS) :
    s.add_generic_gate label vars coeffs span =
      s.add_gate label GateKind.DoubleGeneric
        (vars ++ List.replicate (GENERIC_REGISTERS - vars.length) none)
        (coeffs ++ List.replicate (GENERIC_COEFFS - coeffs.length) 0) span := by
  simp [CircuitWriter.add_generic_gate, hflag, hc, hv]

lemma add_constant_hit (s : CircuitWriter) (label : Option String)
    (value : Field) (span : Span) (cvar : CellVar)
    (hhit : s.cached_constants value = some cvar) :
    s.add_constant label value span = some (cvar, s) := by
  simp [CircuitWriter.add_constant, hhit]

/-- The writer state after a cache-missing `add_constant` call with the
coalescing optimization off. -/
def afterConst (s : CircuitWriter) (label : Option String) (value : Field)
    (span : Span) : CircuitWriter :=
  { s with
    next_variable := s.next_variable + 1,
    witness_vars := insertWitnessVar s.witness_vars s.next_variable
      (Value.Constant value),
    cached_constants := fun f =>
      if f = value then some ⟨s.next_variable, span⟩
      else s.cached_constants f,
    rows_of_vars := s.rows_of_vars ++
      [[some ⟨s.next_variable, span⟩, none, none]],
    gates := s.gates ++
      [⟨GateKind.DoubleGeneric, [1, 0, 0, 0, -value], span, label.getD "hardcode a constant"⟩],
    wiring := wireRow s.wiring s.gates.length
      [some ⟨s.next_variable, span⟩, none, none] span }

lemma add_constant_miss (s : CircuitWriter) (label : Option String)
    (value : Field) (span : Span)
    (hflag : s.double_generic_gate_optimization = false)
    (hmiss : s.cached_constants value = none) :
    s.add_constant label value span =
      some (⟨s.next_variable, span⟩, afterConst s label value span) := by
  rw [afterConst]
  simp only [CircuitWriter.add_constant, hmiss, CircuitWriter.new_internal_var]
  rw [add_generic_gate_flag_off _ _ _ _ _ (by simp [hflag])
    (by simp [GENERIC_COEFFS]) (by simp [GENERIC_REGISTERS])]
  rw [add_gate_ok _ _ _ _ _ _
    (by simp [NUM_REGISTERS, GENERIC_COEFFS])
    (by simp [NUM_REGISTERS, GENERIC_REGISTERS])]
  simp [GENERIC_COEFFS, GENERIC_REGISTERS]

/-- Claim C2: `add_constant` memoizes constants. With the coalescing
optimization off and both values uncached: the first call allocates a fresh
wire, caches it, and appends exactly one generic gate with coefficients
`[1, 0, 0, 0, -value]` carried by that single wire; a second call with the
same value returns the same wire and the unchanged state (no second gate, no
cache change); a call with a different value returns a distinct wire and
appends a second gate. -/
theorem add_constant_memoizes (s : CircuitWriter) (label : Option String)
    (v1 v2 : Field) (span1 span2 : Span)
    (hflag : s.double_generic_gate_optimization = false)
    (h1 : s.cached_constants v1 = none)
    (h2 : s.cached_constants v2 = none)
    (hne : v1 ≠ v2) :
    ∃ w1 s1 w2 s2,
      s.add_constant label v1 span1 = some (w1, s1) ∧
      w1.index = s.next_variable ∧
      s1.gates = s.gates ++
        [⟨GateKind.DoubleGeneric, [1, 0, 0, 0, -v1], span1, label.getD "hardcode a constant"⟩] ∧
      s1.rows_of_vars = s.rows_of_vars ++ [[some w1, none, none]] ∧
      s1.cached_constants v1 = some w1 ∧
      s1.add_constant label v1 span1 = some (w1, s1) ∧
      s1.add_constant label v2 span2 = some (w2, s2) ∧
      w2 ≠ w1 ∧
      s2.gates = s1.gates ++
        [⟨GateKind.DoubleGeneric, [1, 0, 0, 0, -v2], span2, label.getD "hardcode a constant"⟩] := by
  have hne' : v2 ≠ v1 := fun h => hne h.symm
  have hfirst := add_constant_miss s label v1 span1 hflag h1
  refine ⟨⟨s.next_variable, span1⟩, afterConst s label v1 span1,
    ⟨s.next_variable + 1, span2⟩,
    afterConst (afterConst s label v1 span1) label v2 span2,
    hfirst, rfl, ?_, ?_, ?_, ?_, ?_, ?_, ?_⟩
  · simp [afterConst]
  · simp [afterConst]
  · simp [afterConst]
  · exact add_constant_hit _ _ _ _ _ (by simp [afterConst])
  · exact add_constant_miss _ label v2 span2 (by simp [afterConst, hflag])
      (by simp [afterConst, hne', h2])
  · intro h
    have h' := congrArg CellVar.index h
    simp at h'
  · simp [afterConst]

/-- Witness for claim C2: concrete first, repeated and distinct calls on the
fresh writer with values 5 and 7. -/
theorem add_constant_memoizes_witness :
    ∃ w1 s1 w2 s2,
      (CircuitWriter.init emptyTC).add_constant none 5 sp0 = some (w1, s1) ∧
      w1.index = (CircuitWriter.init emptyTC).next_variable ∧
      s1.gates = (CircuitWriter.init emptyTC).gates ++
        [⟨GateKind.DoubleGeneric, [1, 0, 0, 0, -5], sp0, Option.getD none "hardcode a constant"⟩] ∧
      s1.rows_of_vars = (CircuitWriter.init emptyTC).rows_of_vars ++ [[some w1, none, none]] ∧
      s1.cached_constants 5 = some w1 ∧
      s1.add_constant none 5 sp0 = some (w1, s1) ∧
      s1.add_constant none 7 sp0 = some (w2, s2) ∧
      w2 ≠ w1 ∧
      s2.gates = s1.gates ++
        [⟨GateKind.DoubleGeneric, [1, 0, 0, 0, -7], sp0, Option.getD none "hardcode a constant"⟩] :=
  add_constant_memoizes (CircuitWriter.init emptyTC) none 5 7 sp0 sp0
    rfl rfl rfl (by decide)

lemma add_gate_pending_unchanged (s : CircuitWriter) (note : String)
    (typ : GateKind) (vars : List (Option CellVar)) (coeffs : List Field)
    (span : Span) (s' : CircuitWriter)
    (h : s.add_gate note typ vars coeffs span = some s') :
    s'.pending_generic_gate = s.pending_generic_gate := by
  rw [CircuitWriter.add_gate] at h
  split at h
  · cases h
    rfl
  · cases h

/-- Claim C4: `add_generic_gate` right-pads coefficients to `GENERIC_COEFFS`
with zeros and wire slots to `GENERIC_REGISTERS` with empty slots. With the
coalescing flag off, every call appends exactly one (single-width) gate; with
it on, a call finding an empty pending slot buffers the padded request and
appends no gate, and a call finding a buffered request flushes both as one
double-width row (this call's half first, then the buffered one) and clears
the slot. `add_gate` itself never touches the pending slot, so a buffered
request without a partner is never emitted. -/
theorem add_generic_gate_pads_and_coalesces (s : CircuitWriter)
    (label : String) (vars : List (Option CellVar)) (coeffs : List Field)
    (span : Span)
    (hc : coeffs.length ≤ GENERIC_COEFFS)
    (hv : vars.length ≤ GENERIC_REGISTERS) :
    (s.double_generic_gate_optimization = false →
      s.add_generic_gate label vars coeffs span = some { s with
        rows_of_vars := s.rows_of_vars ++
          [vars ++ List.replicate (GENERIC_REGISTERS - vars.length) none],
        gates := s.gates ++
          [⟨GateKind.DoubleGeneric, coeffs ++ List.replicate (GENERIC_COEFFS - coeffs.length) 0, span, label⟩],
        wiring := wireRow s.wiring s.gates.length
          (vars ++ List.replicate (GENERIC_REGISTERS - vars.length) none) span }) ∧
    (s.double_generic_gate_optimization = true →
      s.pending_generic_gate = none →
      s.add_generic_gate label vars coeffs span = some { s with
        pending_generic_gate := some
          ⟨label, coeffs ++ List.replicate (GENERIC_COEFFS - coeffs.length) 0,
            vars ++ List.replicate (GENERIC_REGISTERS - vars.length) none, span⟩ }) ∧
    (∀ g : PendingGate, s.double_generic_gate_optimization = true →
      s.pending_generic_gate = some g →
      g.coeffs.length = GENERIC_COEFFS → g.vars.length = GENERIC_REGISTERS →
      s.add_generic_gate label vars coeffs span = some { s with
        pending_generic_gate := none,
        rows_of_vars := s.rows_of_vars ++
          [(vars ++ List.replicate (GENERIC_REGISTERS - vars.length) none) ++ g.vars],
        gates := s.gates ++
          [⟨GateKind.DoubleGeneric, (coeffs ++ List.replicate (GENERIC_COEFFS - coeffs.length) 0) ++ g.coeffs, span, label⟩],
        wiring := wireRow s.wiring s.gates.length
          ((vars ++ List.replicate (GENERIC_REGISTERS - vars.length) none) ++ g.vars) span }) ∧
    (∀ (note : String) (typ : GateKind) (vars2 : List (Option CellVar))
        (coeffs2 : List Field) (span2 : Span) (s' : CircuitWriter),
      s.add_gate note typ vars2 coeffs2 span2 = some s' →
      s'.pending_generic_gate = s.pending_generic_gate) := by
  refine ⟨?_, ?_, ?_, fun note typ vars2 coeffs2 span2 s' h =>
    add_gate_pending_unchanged s note typ vars2 coeffs2 span2 s' h⟩
  · intro hflag
    rw [add_generic_gate_flag_off s label vars coeffs span hflag hc hv]
    rw [add_gate_ok _ _ _ _ _ _
      (by simp [NUM_REGISTERS, GENERIC_COEFFS] at hc ⊢; omega)
      (by simp [NUM_REGISTERS, GENERIC_REGISTERS] at hv ⊢; omega)]
  · intro hflag hpend
    rw [CircuitWriter.add_generic_gate]
    simp [hc, hv, hflag, hpend]
  · intro g hflag hpend hgc hgv
    rw [CircuitWriter.add_generic_gate]
    simp only [hc, hv, and_self, if_true, hflag, hpend, Bool.not_true]
    rw [if_neg (by simp)]
    rw [add_gate_ok _ _ _ _ _ _
      (by simp [NUM_REGISTERS, GENERIC_COEFFS, hgc] at hc ⊢; omega)
      (by simp [NUM_REGISTERS, GENERIC_REGISTERS, hgv] at hv ⊢; omega)]

/-- The fresh writer with the coalescing optimization turned on. -/
def optWriter : CircuitWriter :=
  { CircuitWriter.init emptyTC with double_generic_gate_optimization := true }

/-- Witness for claim C4: the padding and coalescing behavior at the
coalescing-enabled fresh writer with an empty request. -/
theorem add_generic_gate_pads_and_coalesces_witness :
    (optWriter.double_generic_gate_optimization = false →
      optWriter.add_generic_gate "gate" [] [] sp0 = some { optWriter with
        rows_of_vars := optWriter.rows_of_vars ++
          [[] ++ List.replicate (GENERIC_REGISTERS - List.length ([] : List (Option CellVar))) none],
        gates := optWriter.gates ++
          [⟨GateKind.DoubleGeneric, [] ++ List.replicate (GENERIC_COEFFS - List.length ([] : List Field)) 0, sp0, "gate"⟩],
        wiring := wireRow optWriter.wiring optWriter.gates.length
          ([] ++ List.replicate (GENERIC_REGISTERS - List.length ([] : List (Option CellVar))) none) sp0 }) ∧
    (optWriter.double_generic_gate_optimization = true →
      optWriter.pending_generic_gate = none →
      optWriter.add_generic_gate "gate" [] [] sp0 = some { optWriter with
        pending_generic_gate := some
          ⟨"gate", [] ++ List.replicate (GENERIC_COEFFS - List.length ([] : List Field)) 0,
            [] ++ List.replicate (GENERIC_REGISTERS - List.length ([] : List (Option CellVar))) none, sp0⟩ }) ∧
    (∀ g : PendingGate, optWriter.double_generic_gate_optimization = true →
      optWriter.pending_generic_gate = some g →
      g.coeffs.length = GENERIC_COEFFS → g.vars.length = GENERIC_REGISTERS →
      optWriter.add_generic_gate "gate" [] [] sp0 = some { optWriter with
        pending_generic_gate := none,
        rows_of_vars := optWriter.rows_of_vars ++
          [([] ++ List.replicate (GENERIC_REGISTERS - List.length ([] : List (Option CellVar))) none) ++ g.vars],
        gates := optWriter.gates ++
          [⟨GateKind.DoubleGeneric, ([] ++ List.replicate (GENERIC_COEFFS - List.length ([] : List Field)) 0) ++ g.coeffs, sp0, "gate"⟩],
        wiring := wireRow optWriter.wiring optWriter.gates.length
          (([] ++ List.replicate (GENERIC_REGISTERS - List.length ([] : List (Option CellVar))) none) ++ g.vars) sp0 }) ∧
    (∀ (note : String) (typ : GateKind) (vars2 : List (Option CellVar))
        (coeffs2 : List Field) (span2 : Span) (s' : CircuitWriter),
      optWriter.add_gate note typ vars2 coeffs2 span2 = some s' →
      s'.pending_generic_gate = optWriter.pending_generic_gate) :=
  add_generic_gate_pads_and_coalesces optWriter "gate" [] [] sp0
    (by decide) (by decide)

lemma map_range_succ {α : Type} (n : Nat) (f : Nat → α) :
    (List.range (n + 1)).map f = f 0 :: (List.range n).map (fun k => f (k + 1)) := by
  simp [List.range_succ_eq_map, List.map_map, Function.comp]

lemma pubInputsLoop_spec (name : String) (span : Span) :
    ∀ (idxs : List Nat) (s : CircuitWriter),
    ∃ cvars s', pubInputsLoop name span idxs s = some (cvars, s') ∧
      cvars.length = idxs.length ∧
      (∀ k, k < idxs.length →
        cvars[k]? = some (ConstOrCell.Cell ⟨s.next_variable + k, span⟩)) ∧
      s'.next_variable = s.next_variable + idxs.length ∧
      s'.gates = s.gates ++ List.replicate idxs.length
        ⟨GateKind.DoubleGeneric, [1], span, "add public input"⟩ ∧
      s'.rows_of_vars = s.rows_of_vars ++ (List.range idxs.length).map
        (fun k => [some (⟨s.next_variable + k, span⟩ : CellVar)]) ∧
      s'.public_input_size = s.public_input_size ∧
      s'.private_input_indices = s.private_input_indices ∧
      s'.public_output = s.public_output ∧
      s'.double_generic_gate_optimization = s.double_generic_gate_optimization ∧
      (∀ k, k < idxs.length →
        s'.witness_vars (s.next_variable + k) = (idxs[k]?).map (Value.External name)) ∧
      (∀ j, j < s.next_variable ∨ s.next_variable + idxs.length ≤ j →
        s'.witness_vars j = s.witness_vars j) := by
  intro idxs
  induction idxs with
  | nil =>
    intro s
    refine ⟨[], s, by simp [pubInputsLoop], rfl, ?_, by simp, by simp, by simp, rfl, rfl, rfl, rfl, ?_, ?_⟩
    · intro k hk
      simp at hk
    · intro k hk
      simp at hk
    · intro j _
      rfl
  | cons idx rest ih =>
    intro s
    obtain ⟨cvars', s', hloop, hlen, hcv, hnext, hgates, hrows, hpub, hpriv, hpo, hflag, hwv, hwvout⟩ :=
      ih { s with
        next_variable := s.next_variable + 1,
        witness_vars := insertWitnessVar s.witness_vars s.next_variable
          (Value.External name idx),
        rows_of_vars := s.rows_of_vars ++ [[some ⟨s.next_variable, span⟩]],
        gates := s.gates ++ [⟨GateKind.DoubleGeneric, [1], span, "add public input"⟩],
        wiring := wireRow s.wiring s.gates.length [some ⟨s.next_variable, span⟩] span }
    simp only [CircuitWriter.next_variable, CircuitWriter.witness_vars,
      CircuitWriter.gates, CircuitWriter.rows_of_vars,
      CircuitWriter.public_input_size, CircuitWriter.public_output,
      CircuitWriter.double_generic_gate_optimization,
      CircuitWriter.private_input_indices] at hcv hnext hgates hrows hpub hpriv hpo hflag hwv hwvout
    refine ⟨ConstOrCell.Cell ⟨s.next_variable, span⟩ :: cvars', s', ?_,
      by simp [hlen], ?_, by simp [hnext]; omega, ?_, ?_, by simp [hpub], by simp [hpriv],
      by simp [hpo], by simp [hflag], ?_, ?_⟩
    · simp only [pubInputsLoop, CircuitWriter.new_internal_var]
      rw [add_gate_ok _ _ _ _ _ _ (by simp [NUM_REGISTERS]) (by simp [NUM_REGISTERS])]
      simp [hloop]
    · intro k hk
      match k with
      | 0 => simp
      | k + 1 =>
        rw [List.getElem?_cons_succ, hcv k (by simpa using hk)]
        simp only [Option.some.injEq, ConstOrCell.Cell.injEq, CellVar.mk.injEq]
        exact ⟨by omega, trivial⟩
    · rw [hgates]
      simp [List.replicate_succ]
    · rw [hrows]
      simp only [List.length_cons, map_range_succ, Nat.add_zero,
        List.append_assoc, List.singleton_append]
      have harith : (fun k => [some (⟨s.next_variable + 1 + k, span⟩ : CellVar)]) =
          (fun k => [some (⟨s.next_variable + (k + 1), span⟩ : CellVar)]) := by
        funext k
        have harg : s.next_variable + 1 + k = s.next_variable + (k + 1) := by omega
        rw [harg]
      rw [harith]
    · intro k hk
      match k with
      | 0 =>
        rw [Nat.add_zero, hwvout s.next_variable (by omega)]
        simp [insertWitnessVar]
      | k + 1 =>
        rw [show s.next_variable + (k + 1) = s.next_variable + 1 + k by omega,
          hwv k (by simpa using hk)]
        simp
    · intro j hj
      simp only [List.length_cons] at hj
      rw [hwvout j (by omega)]
      simp only [insertWitnessVar]
      rw [if_neg (by omega)]

lemma privInputsLoop_spec (name : String) (span : Span) :
    ∀ (idxs : List Nat) (s : CircuitWriter),
    ∃ cvars s', privInputsLoop name span idxs s = (cvars, s') ∧
      cvars.length = idxs.length ∧
      (∀ k, k < idxs.length →
        cvars[k]? = some (ConstOrCell.Cell ⟨s.next_variable + k, span⟩)) ∧
      s'.next_variable = s.next_variable + idxs.length ∧
      s'.gates = s.gates ∧
      s'.rows_of_vars = s.rows_of_vars ∧
      s'.public_input_size = s.public_input_size ∧
      s'.private_input_indices = s.private_input_indices ++
        (List.range idxs.length).map (fun k => s.next_variable + k) ∧
      (∀ k, k < idxs.length →
        s'.witness_vars (s.next_variable + k) = (idxs[k]?).map (Value.External name)) ∧
      (∀ j, j < s.next_variable ∨ s.next_variable + idxs.length ≤ j →
        s'.witness_vars j = s.witness_vars j) := by
  intro idxs
  induction idxs with
  | nil =>
    intro s
    refine ⟨[], s, by simp [privInputsLoop], rfl, ?_, by simp, rfl, rfl, rfl, by simp, ?_, ?_⟩
    · intro k hk
      simp at hk
    · intro k hk
      simp at hk
    · intro j _
      rfl
  | cons idx rest ih =>
    intro s
    obtain ⟨cvars', s', hloop, hlen, hcv, hnext, hgates, hrows, hpub, hpriv, hwv, hwvout⟩ :=
      ih { s with
        next_variable := s.next_variable + 1,
        witness_vars := insertWitnessVar s.witness_vars s.next_variable
          (Value.External name idx),
        private_input_indices := s.private_input_indices ++ [s.next_variable] }
    simp only [CircuitWriter.next_variable, CircuitWriter.witness_vars,
      CircuitWriter.gates, CircuitWriter.rows_of_vars, CircuitWriter.public_input_size,
      CircuitWriter.private_input_indices] at hcv hnext hgates hrows hpub hpriv hwv hwvout
    refine ⟨ConstOrCell.Cell ⟨s.next_variable, span⟩ :: cvars', s', ?_,
      by simp [hlen], ?_, by simp [hnext]; omega, by simp [hgates], by simp [hrows],
      by simp [hpub], ?_, ?_, ?_⟩
    · simp only [privInputsLoop, CircuitWriter.new_internal_var]
      rw [hloop]
    · intro k hk
      match k with
      | 0 => simp
      | k + 1 =>
        rw [List.getElem?_cons_succ, hcv k (by simpa using hk)]
        simp only [Option.some.injEq, ConstOrCell.Cell.injEq, CellVar.mk.injEq]
        exact ⟨by omega, trivial⟩
    · rw [hpriv]
      simp only [List.length_cons, map_range_succ, Nat.add_zero,
        List.append_assoc, List.singleton_append]
      have harith : (fun k => s.next_variable + 1 + k) =
          (fun k => s.next_variable + (k + 1)) := by
        funext k
        omega
      rw [harith]
    · intro k hk
      match k with
      | 0 =>
        rw [Nat.add_zero, hwvout s.next_variable (by omega)]
        simp [insertWitnessVar]
      | k + 1 =>
        rw [show s.next_variable + (k + 1) = s.next_variable + 1 + k by omega,
          hwv k (by simpa using hk)]
        simp
    · intro j hj
      simp only [List.length_cons] at hj
      rw [hwvout j (by omega)]
      simp only [insertWitnessVar]
      rw [if_neg (by omega)]

/-- Claim C5: `add_public_inputs(name, count)` allocates `count` fresh wires
bound to `External(name, idx)` with `idx` ascending from 0, emits per wire one
pass-through generic gate whose coefficient list is `[1]` on that single wire
(the k-th appended gate's wire-slot row is exactly `[Some(wire k)]`), and
increases `public_input_size` by `count`; `add_private_inputs` allocates
`count` fresh `External` wires, emits no gate and changes no row, and records
each new wire index in `private_input_indices`. -/
theorem add_inputs_spec (s : CircuitWriter) (name pname : String) (num : Nat)
    (span : Span) :
    (∃ var s', s.add_public_inputs name num span = some (var, s') ∧
      var.cvars.length = num ∧
      (∀ k, k < num →
        var.cvars[k]? = some (ConstOrCell.Cell ⟨s.next_variable + k, span⟩)) ∧
      (∀ k, k < num →
        s'.witness_vars (s.next_variable + k) = some (Value.External name k)) ∧
      s'.next_variable = s.next_variable + num ∧
      s'.gates = s.gates ++ List.replicate num
        ⟨GateKind.DoubleGeneric, [1], span, "add public input"⟩ ∧
      s'.rows_of_vars = s.rows_of_vars ++ (List.range num).map
        (fun k => [some (⟨s.next_variable + k, span⟩ : CellVar)]) ∧
      s'.public_input_size = s.public_input_size + num) ∧
    (∃ pvar sp', s.add_private_inputs pname num span = (pvar, sp') ∧
      pvar.cvars.length = num ∧
      (∀ k, k < num →
        pvar.cvars[k]? = some (ConstOrCell.Cell ⟨s.next_variable + k, span⟩)) ∧
      (∀ k, k < num →
        sp'.witness_vars (s.next_variable + k) = some (Value.External pname k)) ∧
      sp'.gates = s.gates ∧
      sp'.rows_of_vars = s.rows_of_vars ∧
      sp'.public_input_size = s.public_input_size ∧
      sp'.private_input_indices = s.private_input_indices ++
        (List.range num).map (fun k => s.next_variable + k)) := by
  constructor
  · obtain ⟨cvars, s', hloop, hlen, hcv, hnext, hgates, hrows, hpub, _hpriv, _hpo, _hflag, hwv, _hout⟩ :=
      pubInputsLoop_spec name span (List.range num) s
    refine ⟨⟨cvars, span⟩, { s' with public_input_size := s'.public_input_size + num },
      ?_, by simpa using hlen, ?_, ?_, by simpa using hnext, by simpa using hgates,
      by simpa using hrows, by simp [hpub]⟩
    · rw [CircuitWriter.add_public_inputs, hloop]
    · intro k hk
      exact hcv k (by simpa using hk)
    · intro k hk
      have := hwv k (by simpa using hk)
      simpa [List.getElem?_range hk] using this
  · obtain ⟨cvars, sp', hloop, hlen, hcv, hnext, hgates, hrows, hpub, hpriv, hwv, _hout⟩ :=
      privInputsLoop_spec pname span (List.range num) s
    refine ⟨⟨cvars, span⟩, sp', ?_, by simpa using hlen, ?_, ?_,
      hgates, hrows, hpub, by simpa using hpriv⟩
    · rw [CircuitWriter.add_private_inputs, hloop]
    · intro k hk
      exact hcv k (by simpa using hk)
    · intro k hk
      have := hwv k (by simpa using hk)
      simpa [List.getElem?_range hk] using this

lemma pubOutputsLoop_spec (span : Span) :
    ∀ (n : Nat) (s : CircuitWriter),
    s.double_generic_gate_optimization = false →
    ∃ cvars s', pubOutputsLoop span n s = some (cvars, s') ∧
      cvars.length = n ∧
      (∀ k, k < n →
        cvars[k]? = some (ConstOrCell.Cell ⟨s.next_variable + k, span⟩)) ∧
      s'.next_variable = s.next_variable + n ∧
      s'.gates = s.gates ++ List.replicate n
        ⟨GateKind.DoubleGeneric, [1, 0, 0, 0, 0], span, "add public output"⟩ ∧
      s'.public_input_size = s.public_input_size ∧
      s'.public_output = s.public_output ∧
      (∀ k, k < n →
        s'.witness_vars (s.next_variable + k) = some (Value.PublicOutput none)) ∧
      (∀ j, j < s.next_variable ∨ s.next_variable + n ≤ j →
        s'.witness_vars j = s.witness_vars j) := by
  intro n
  induction n with
  | zero =>
    intro s _hflag
    refine ⟨[], s, by simp [pubOutputsLoop], rfl, ?_, by simp, by simp, rfl, rfl, ?_, ?_⟩
    · intro k hk
      omega
    · intro k hk
      omega
    · intro j _
      rfl
  | succ n ih =>
    intro s hflag
    obtain ⟨cvars', s', hloop, hlen, hcv, hnext, hgates, hpub, hpo, hwv, hwvout⟩ :=
      ih { s with
        next_variable := s.next_variable + 1,
        witness_vars := insertWitnessVar s.witness_vars s.next_variable
          (Value.PublicOutput none),
        rows_of_vars := s.rows_of_vars ++ [[some ⟨s.next_variable, span⟩, none, none]],
        gates := s.gates ++ [⟨GateKind.DoubleGeneric, [1, 0, 0, 0, 0], span, "add public output"⟩],
        wiring := wireRow s.wiring s.gates.length
          [some ⟨s.next_variable, span⟩, none, none] span } (by simpa using hflag)
    simp only [CircuitWriter.next_variable, CircuitWriter.witness_vars,
      CircuitWriter.gates, CircuitWriter.public_input_size,
      CircuitWriter.public_output] at hcv hnext hgates hpub hpo hwv hwvout
    refine ⟨ConstOrCell.Cell ⟨s.next_variable, span⟩ :: cvars', s', ?_,
      by simp [hlen], ?_, by simp [hnext]; omega, ?_, by simp [hpub], by simp [hpo], ?_, ?_⟩
    · simp only [pubOutputsLoop, CircuitWriter.new_internal_var]
      rw [add_generic_gate_flag_off _ _ _ _ _ (by simpa using hflag)
        (by simp [GENERIC_COEFFS]) (by simp [GENERIC_REGISTERS])]
      rw [add_gate_ok _ _ _ _ _ _
        (by simp [NUM_REGISTERS, GENERIC_COEFFS])
        (by simp [NUM_REGISTERS, GENERIC_REGISTERS])]
      simp only [GENERIC_COEFFS, GENERIC_REGISTERS, List.length_cons,
        List.length_singleton, List.length_nil]
      norm_num [List.replicate]
      rw [hloop]
    · intro k hk
      match k with
      | 0 => simp
      | k + 1 =>
        rw [List.getElem?_cons_succ, hcv k (by omega)]
        simp only [Option.some.injEq, ConstOrCell.Cell.injEq, CellVar.mk.injEq]
        exact ⟨by omega, trivial⟩
    · rw [hgates]
      simp [List.replicate_succ]
    · intro k hk
      match k with
      | 0 =>
        rw [Nat.add_zero, hwvout s.next_variable (by omega)]
        simp [insertWitnessVar]
      | k + 1 =>
        rw [show s.next_variable + (k + 1) = s.next_variable + 1 + k by omega,
          hwv k (by omega)]
    · intro j hj
      rw [hwvout j (by omega)]
      simp only [insertWitnessVar]
      rw [if_neg (by omega)]

/-- Claim C9: `add_public_outputs(count)` increases `public_input_size` by
`count` (public outputs are counted inside `public_input_size`, there is no
separate output counter), besides allocating `count` `PublicOutput(None)`
wires with pass-through gates; declaring inputs and then outputs therefore
leaves `public_input_size` equal to the sum of the two counts. -/
theorem add_public_outputs_counts_in_public_input_size (s : CircuitWriter)
    (num : Nat) (span : Span)
    (hflag : s.double_generic_gate_optimization = false)
    (hpo : s.public_output = none) :
    (∃ s', s.add_public_outputs num span = some s' ∧
      s'.public_input_size = s.public_input_size + num ∧
      (∃ cvars, s'.public_output = some ⟨cvars, span⟩ ∧ cvars.length = num ∧
        ∀ k, k < num →
          cvars[k]? = some (ConstOrCell.Cell ⟨s.next_variable + k, span⟩)) ∧
      (∀ k, k < num →
        s'.witness_vars (s.next_variable + k) = some (Value.PublicOutput none)) ∧
      s'.gates.length = s.gates.length + num) ∧
    (∀ (name : String) (nin : Nat) (spanI : Span) (varI : Var) (t : CircuitWriter),
      s.add_public_inputs name nin spanI = some (varI, t) →
      ∃ t', t.add_public_outputs num span = some t' ∧
        t'.public_input_size = s.public_input_size + nin + num) := by
  have main : ∀ (u : CircuitWriter), u.double_generic_gate_optimization = false →
      u.public_output = none →
      ∃ u', u.add_public_outputs num span = some u' ∧
        u'.public_input_size = u.public_input_size + num ∧
        (∃ cvars, u'.public_output = some ⟨cvars, span⟩ ∧ cvars.length = num ∧
          ∀ k, k < num →
            cvars[k]? = some (ConstOrCell.Cell ⟨u.next_variable + k, span⟩)) ∧
        (∀ k, k < num →
          u'.witness_vars (u.next_variable + k) = some (Value.PublicOutput none)) ∧
        u'.gates.length = u.gates.length + num := by
    intro u huflag hupo
    obtain ⟨cvars, u', hloop, hlen, hcv, _hnext, hgates, hpub, _hpo2, hwv, _hout⟩ :=
      pubOutputsLoop_spec span num u huflag
    refine ⟨{ u' with
               public_input_size := u'.public_input_size + num,
               public_output := some ⟨cvars, span⟩ },
      ?_, by simp [hpub], ?_, ?_, ?_⟩
    · rw [CircuitWriter.add_public_outputs, if_neg (by simp [hupo]), hloop]
    · exact ⟨cvars, rfl, hlen, hcv⟩
    · intro k hk
      simpa using hwv k hk
    · simp [hgates]
  refine ⟨main s hflag hpo, ?_⟩
  intro name nin spanI varI t hin
  obtain ⟨cvarsI, t0, hloopI, _, _, _, _, _, hpubI, _, hpoI, hflagI, _, _⟩ :=
    pubInputsLoop_spec name spanI (List.range nin) s
  rw [CircuitWriter.add_public_inputs, hloopI] at hin
  cases hin
  obtain ⟨t', hout, hsize, _, _, _⟩ := main
    { t0 with public_input_size := t0.public_input_size + nin }
    (by simpa using hflagI.trans hflag) (by simpa using hpoI.trans hpo)
  exact ⟨t', hout, by simpa [hpubI] using hsize⟩

/-- Witness for claim C9: two public outputs declared on the fresh writer. -/
theorem add_public_outputs_counts_in_public_input_size_witness :
    (∃ s', (CircuitWriter.init emptyTC).add_public_outputs 2 sp0 = some s' ∧
      s'.public_input_size = (CircuitWriter.init emptyTC).public_input_size + 2 ∧
      (∃ cvars, s'.public_output = some ⟨cvars, sp0⟩ ∧ cvars.length = 2 ∧
        ∀ k, k < 2 →
          cvars[k]? = some (ConstOrCell.Cell ⟨(CircuitWriter.init emptyTC).next_variable + k, sp0⟩)) ∧
      (∀ k, k < 2 →
        s'.witness_vars ((CircuitWriter.init emptyTC).next_variable + k) =
          some (Value.PublicOutput none)) ∧
      s'.gates.length = (CircuitWriter.init emptyTC).gates.length + 2) ∧
    (∀ (name : String) (nin : Nat) (spanI : Span) (varI : Var) (t : CircuitWriter),
      (CircuitWriter.init emptyTC).add_public_inputs name nin spanI = some (varI, t) →
      ∃ t', t.add_public_outputs 2 sp0 = some t' ∧
        t'.public_input_size = (CircuitWriter.init emptyTC).public_input_size + nin + 2) :=
  add_public_outputs_counts_in_public_input_size (CircuitWriter.init emptyTC)
    2 sp0 rfl rfl

lemma bind_public_outputs_spec :
    ∀ (pairs : List (ConstOrCell × CellVar)) (wv : Nat → Option Value),
    (∀ p ∈ pairs, ∃ c, p.1 = ConstOrCell.Cell c ∧ (wv c.index).isSome) →
    (pairs.map (fun p => p.1.idx)).Nodup →
    ∃ wv', bind_public_outputs wv pairs = .ok wv' ∧
      (∀ p ∈ pairs, ∀ c, p.1 = ConstOrCell.Cell c →
        wv' c.index = some (Value.PublicOutput (some p.2))) ∧
      (∀ j, (∀ p ∈ pairs, p.1.idx ≠ some j) → wv' j = wv j) := by
  intro pairs
  induction pairs with
  | nil =>
    intro wv _ _
    exact ⟨wv, rfl, by simp, fun j _ => rfl⟩
  | cons pr rest ih =>
    intro wv hcell hnodup
    obtain ⟨c, hc, hsome⟩ := hcell pr (by simp)
    obtain ⟨pc, rc⟩ := pr
    simp only at hc
    subst hc
    simp only [List.map_cons] at hnodup
    have hnodup' := List.nodup_cons.mp hnodup
    obtain ⟨wv', hrec, hpoint, hout⟩ :=
      ih (insertWitnessVar wv c.index (Value.PublicOutput (some rc)))
        (by
          intro p hp
          obtain ⟨c', hc', hsome'⟩ := hcell p (by simp [hp])
          refine ⟨c', hc', ?_⟩
          simp only [insertWitnessVar]
          split
          · simp
          · exact hsome')
        hnodup'.2
    have hhead_notin : ∀ p ∈ rest, p.1.idx ≠ some c.index := by
      intro p hp hcontra
      apply hnodup'.1
      simp only [List.mem_map]
      refine ⟨p, hp, ?_⟩
      show p.1.idx = (ConstOrCell.Cell c).idx
      rw [hcontra]
      rfl
    refine ⟨wv', ?_, ?_, ?_⟩
    · simp only [bind_public_outputs, ConstOrCell.idx]
      rw [if_pos hsome]
      exact hrec
    · intro p hp c' hc'
      rcases List.mem_cons.mp hp with heq | hmem
      · subst heq
        simp only at hc'
        cases hc'
        rw [hout c.index (by
          intro p hp
          exact hhead_notin p hp)]
        simp [insertWitnessVar]
      · exact hpoint p hmem c' hc'
    · intro j hj
      rw [hout j (fun p hp => hj p (by simp [hp]))]
      simp only [insertWitnessVar]
      rw [if_neg (by
        have := hj (ConstOrCell.Cell c, rc) (by simp)
        simp [ConstOrCell.idx] at this
        omega)]

lemma bind_public_outputs_changes :
    ∀ (pairs : List (ConstOrCell × CellVar)) (wv wv' : Nat → Option Value),
    bind_public_outputs wv pairs = .ok wv' →
    ∀ j, wv' j ≠ wv j →
    ∃ p ∈ pairs, p.1.idx = some j ∧ wv' j = some (Value.PublicOutput (some p.2)) := by
  intro pairs
  induction pairs with
  | nil =>
    intro wv wv' h j hj
    simp only [bind_public_outputs] at h
    cases h
    exact absurd rfl hj
  | cons pr rest ih =>
    intro wv wv' h j hj
    obtain ⟨pc, rc⟩ := pr
    simp only [bind_public_outputs] at h
    match hpc : pc.idx with
    | none =>
      simp only [hpc] at h
      cases h
    | some i =>
      simp only [hpc] at h
      by_cases hprev : (wv i).isSome
      · rw [if_pos hprev] at h
        by_cases hj1 : wv' j =
            insertWitnessVar wv i (Value.PublicOutput (some rc)) j
        · have hne : insertWitnessVar wv i (Value.PublicOutput (some rc)) j ≠ wv j := by
            intro hcontra
            exact hj (hj1.trans hcontra)
          simp only [insertWitnessVar] at hne hj1
          by_cases hji : j = i
          · subst hji
            refine ⟨(pc, rc), by simp, by simp [hpc], ?_⟩
            rw [hj1]
            simp
          · rw [if_neg hji] at hne
            exact absurd rfl hne
        · obtain ⟨p, hp, hidx, hval⟩ := ih _ _ h j hj1
          exact ⟨p, by simp [hp], hidx, hval⟩
      · rw [if_neg hprev] at h
        cases h

/-- Claim C8: `new_internal_var` issues dense, strictly increasing indices,
binding each fresh index to exactly one `Value` (the mapping stays total on
issued indices and is untouched elsewhere); the only re-binding of an existing
index in the writer is the public-output substitution loop of
`compile_main_function`, which rewrites exactly the indices of the
public-output components, turning them into `PublicOutput(Some(wire))`. -/
theorem new_internal_var_dense_append_only (s : CircuitWriter) (val : Value)
    (span : Span) :
    ((s.new_internal_var val span).1.index = s.next_variable ∧
     (s.new_internal_var val span).2.next_variable = s.next_variable + 1 ∧
     (s.new_internal_var val span).2.witness_vars s.next_variable = some val ∧
     (∀ j, j ≠ s.next_variable →
       (s.new_internal_var val span).2.witness_vars j = s.witness_vars j) ∧
     ((∀ j, j < s.next_variable → (s.witness_vars j).isSome) →
       ∀ j, j < s.next_variable + 1 →
         ((s.new_internal_var val span).2.witness_vars j).isSome)) ∧
    (∀ (pairs : List (ConstOrCell × CellVar)) (wv wv' : Nat → Option Value),
      bind_public_outputs wv pairs = .ok wv' →
      ∀ j, wv' j ≠ wv j →
      ∃ p ∈ pairs, p.1.idx = some j ∧
        wv' j = some (Value.PublicOutput (some p.2))) := by
  refine ⟨⟨rfl, rfl, by simp [CircuitWriter.new_internal_var, insertWitnessVar], ?_, ?_⟩,
    bind_public_outputs_changes⟩
  · intro j hj
    simp only [CircuitWriter.new_internal_var, insertWitnessVar]
    rw [if_neg hj]
  · intro htotal j hj
    simp only [CircuitWriter.new_internal_var, insertWitnessVar]
    by_cases hje : j = s.next_variable
    · rw [if_pos hje]
      simp
    · rw [if_neg hje]
      exact htotal j (by omega)

lemma zip_map_idx_nodup :
    ∀ (pcs cells : List CellVar),
    (pcs.map CellVar.index).Nodup →
    (((pcs.map ConstOrCell.Cell).zip cells).map (fun p => p.1.idx)).Nodup := by
  intro pcs
  induction pcs with
  | nil =>
    intro cells _
    simp
  | cons pc rest ih =>
    intro cells hnodup
    match cells with
    | [] => simp
    | c :: cs =>
      simp only [List.map_cons, List.zip_cons_cons]
      rw [List.nodup_cons]
      simp only [List.map_cons] at hnodup
      have hnodup' := List.nodup_cons.mp hnodup
      refine ⟨?_, ih cs hnodup'.2⟩
      intro hmem
      obtain ⟨p, hp, hpidx⟩ := List.mem_map.mp hmem
      obtain ⟨pc', hpc', hpc'eq⟩ := List.mem_map.mp (List.of_mem_zip hp).1
      apply hnodup'.1
      refine List.mem_map.mpr ⟨pc', hpc', ?_⟩
      rw [← hpc'eq] at hpidx
      simp only [ConstOrCell.idx] at hpidx
      exact Option.some.inj hpidx

lemma check_no_constants_all_cells (span : Span) :
    ∀ (cells : List CellVar),
    check_no_constants span (cells.map ConstOrCell.Cell) = .ok cells := by
  intro cells
  induction cells with
  | nil => rfl
  | cons c rest ih => simp [check_no_constants, ih]

lemma check_no_constants_const (span : Span) (c : Field) :
    ∀ (cvars : List ConstOrCell), ConstOrCell.Const c ∈ cvars →
    check_no_constants span cvars = .error (.user .ConstantInOutput span) := by
  intro cvars
  induction cvars with
  | nil =>
    intro h
    simp at h
  | cons hd rest ih =>
    intro hmem
    match hd with
    | .Const c' => rfl
    | .Cell c' =>
      rcases List.mem_cons.mp hmem with heq | hm
      · cases heq
      · simp [check_no_constants, ih hm]

/-- Claim C1: the return check of `compile_main_function`. Given the body
block's result: no declared return type and no returned value succeed; a
declared type without a returned value is `MissingReturn`; a returned value
without a declared type is `UnexpectedReturn`; a returned value containing a
compile-time constant is `ConstantInOutput`; otherwise each returned wire is
substituted 1:1, in order, into the pre-allocated `PublicOutput(None)` values,
which become `PublicOutput(Some(wire))`, leaving every other binding and the
rest of the state unchanged. -/
theorem compile_main_function_return_check (s : CircuitWriter)
    (fn_env : FnEnv) (f : MainFunction) (ret : Option Var)
    (s1 : CircuitWriter) (env1 : FnEnv)
    (hblock : s.compile_block fn_env f.body = .ok (ret, s1, env1)) :
    (f.sig.return_type = none → ret = none →
      s.compile_main_function fn_env f = .ok (s1, env1)) ∧
    (∀ sp : Span, f.sig.return_type = some sp → ret = none →
      s.compile_main_function fn_env f = .error (.user .MissingReturn sp)) ∧
    (∀ rv : Var, f.sig.return_type = none → ret = some rv →
      s.compile_main_function fn_env f = .error (.user .UnexpectedReturn rv.span)) ∧
    (∀ (sp : Span) (rv : Var) (c : Field), f.sig.return_type = some sp → ret = some rv →
      ConstOrCell.Const c ∈ rv.cvars →
      s.compile_main_function fn_env f = .error (.user .ConstantInOutput rv.span)) ∧
    (∀ (sp : Span) (rv : Var) (cells : List CellVar) (po : Var) (pcs : List CellVar),
      f.sig.return_type = some sp → ret = some rv →
      rv.cvars = cells.map ConstOrCell.Cell →
      s1.public_output = some po →
      po.cvars = pcs.map ConstOrCell.Cell →
      (pcs.map CellVar.index).Nodup →
      (∀ pc ∈ pcs, (s1.witness_vars pc.index).isSome) →
      ∃ s2, s.compile_main_function fn_env f = .ok (s2, env1) ∧
        s2.gates = s1.gates ∧
        s2.public_output = s1.public_output ∧
        (∀ pr ∈ pcs.zip cells,
          s2.witness_vars pr.1.index = some (Value.PublicOutput (some pr.2))) ∧
        (∀ j, (∀ pc ∈ pcs, pc.index ≠ j) →
          s2.witness_vars j = s1.witness_vars j)) := by
  refine ⟨?_, ?_, ?_, ?_, ?_⟩
  · intro h1 h2
    subst h2
    rw [CircuitWriter.compile_main_function, hblock, h1]
  · intro sp h1 h2
    subst h2
    rw [CircuitWriter.compile_main_function, hblock, h1]
  · intro rv h1 h2
    subst h2
    rw [CircuitWriter.compile_main_function, hblock, h1]
  · intro sp rv c h1 h2 hmem
    subst h2
    rw [CircuitWriter.compile_main_function, hblock, h1]
    simp only [check_no_constants_const rv.span c rv.cvars hmem]
  · intro sp rv cells po pcs h1 h2 hcells hpo hpocvars hnodup hsome
    subst h2
    have hpairs : ∀ p ∈ (pcs.map ConstOrCell.Cell).zip cells,
        ∃ c, p.1 = ConstOrCell.Cell c ∧ (s1.witness_vars c.index).isSome := by
      intro p hp
      have h1' := (List.of_mem_zip hp).1
      obtain ⟨pc, hpc, hpceq⟩ := List.mem_map.mp h1'
      exact ⟨pc, hpceq.symm, hsome pc hpc⟩
    have hnodup2 : (((pcs.map ConstOrCell.Cell).zip cells).map
        (fun p => p.1.idx)).Nodup := zip_map_idx_nodup pcs cells hnodup
    obtain ⟨wv', hrec, hpoint, hout⟩ :=
      bind_public_outputs_spec ((pcs.map ConstOrCell.Cell).zip cells)
        s1.witness_vars hpairs hnodup2
    refine ⟨{ s1 with witness_vars := wv' }, ?_, rfl, rfl, ?_, ?_⟩
    · rw [CircuitWriter.compile_main_function, hblock, h1]
      simp only [hcells, check_no_constants_all_cells, hpo, hpocvars, hrec]
    · intro pr hpr
      have : (ConstOrCell.Cell pr.1, pr.2) ∈ (pcs.map ConstOrCell.Cell).zip cells := by
        rw [List.zip_map_left]
        exact List.mem_map.mpr ⟨pr, hpr, rfl⟩
      exact hpoint _ this pr.1 rfl
    · intro j hj
      exact hout j (by
        intro p hp
        obtain ⟨c, hc, _⟩ := hpairs p hp
        rw [hc]
        obtain ⟨pc, hpc, hpceq⟩ := List.mem_map.mp (List.of_mem_zip hp).1
        rw [hc] at hpceq
        have hcpc : pc = c := by
          cases hpceq
          rfl
        subst hcpc
        simp [ConstOrCell.idx]
        exact hj pc hpc)

/-- A writer mid-compilation: wire 0 is an input of main, wire 1 the
pre-allocated public output. -/
def mainFixtureWriter : CircuitWriter :=
  { CircuitWriter.init emptyTC with
    next_variable := 2,
    witness_vars := fun i =>
      if i = 1 then some (Value.PublicOutput none)
      else if i = 0 then some (Value.External "x" 0) else none,
    public_output := some ⟨[ConstOrCell.Cell ⟨1, sp0⟩], sp0⟩ }

/-- A scope binding `x` to wire 0. -/
def mainFixtureEnv : FnEnv :=
  ⟨[[("x", ⟨⟨[ConstOrCell.Cell ⟨0, sp0⟩], sp0⟩, false, some TyKind.Field⟩)]]⟩

/-- The program `fn main(...) -> Field { return x; }`. -/
def mainFixtureFn : MainFunction :=
  ⟨⟨some sp0⟩, [Stmt.Return (Expr.Variable none "x" sp0) sp0]⟩

/-- The program `fn main(...) -> Field { return 5; }`. -/
def mainFixtureConstFn : MainFunction :=
  ⟨⟨some sp0⟩, [Stmt.Return (Expr.BigInt "5" sp0) sp0]⟩

/-- Witness for claim C1: returning the wire `x` rebinds the public-output
wire 1 to `PublicOutput(Some(wire 0))`; returning the literal 5 fails with
`ConstantInOutput`. -/
theorem compile_main_function_return_check_witness :
    (∃ s2, mainFixtureWriter.compile_main_function mainFixtureEnv mainFixtureFn =
        .ok (s2, mainFixtureEnv.nest) ∧
      s2.gates = mainFixtureWriter.gates ∧
      s2.public_output = mainFixtureWriter.public_output ∧
      (∀ pr ∈ [(⟨1, sp0⟩ : CellVar)].zip [(⟨0, sp0⟩ : CellVar)],
        s2.witness_vars pr.1.index = some (Value.PublicOutput (some pr.2))) ∧
      (∀ j, (∀ pc ∈ [(⟨1, sp0⟩ : CellVar)], pc.index ≠ j) →
        s2.witness_vars j = mainFixtureWriter.witness_vars j)) ∧
    mainFixtureWriter.compile_main_function mainFixtureEnv mainFixtureConstFn =
      .error (.user .ConstantInOutput sp0) := by
  have hxtype : is_type "x" = false := by decide
  have hblock1 : mainFixtureWriter.compile_block mainFixtureEnv mainFixtureFn.body =
      .ok (some ⟨[ConstOrCell.Cell ⟨0, sp0⟩], sp0⟩, mainFixtureWriter,
        mainFixtureEnv.nest) := by
    simp [CircuitWriter.compile_block, CircuitWriter.compile_stmts,
      CircuitWriter.compile_stmt, CircuitWriter.compute_expr, mainFixtureFn,
      mainFixtureEnv, hxtype, FnEnv.get_var, lookupFrames, lookupVar,
      VarOrRef.from_var_info, VarOrRef.value, FnEnv.nest]
  have h5 : parseDecimal "5" = some 5 := by decide
  have h5lt : (5 : Nat) < fieldPrime := by decide
  have hblock2 : mainFixtureWriter.compile_block mainFixtureEnv mainFixtureConstFn.body =
      .ok (some ⟨[ConstOrCell.Const 5], sp0⟩, mainFixtureWriter,
        mainFixtureEnv.nest) := by
    simp [CircuitWriter.compile_block, CircuitWriter.compile_stmts,
      CircuitWriter.compile_stmt, CircuitWriter.compute_expr, mainFixtureConstFn,
      h5, h5lt, VarOrRef.value, Var.new_constant]
  exact ⟨(compile_main_function_return_check mainFixtureWriter mainFixtureEnv
      mainFixtureFn (some ⟨[ConstOrCell.Cell ⟨0, sp0⟩], sp0⟩)
      mainFixtureWriter mainFixtureEnv.nest hblock1).2.2.2.2
      sp0 ⟨[ConstOrCell.Cell ⟨0, sp0⟩], sp0⟩ [⟨0, sp0⟩]
      ⟨[ConstOrCell.Cell ⟨1, sp0⟩], sp0⟩ [⟨1, sp0⟩]
      rfl rfl rfl rfl rfl (by simp) (by decide),
    (compile_main_function_return_check mainFixtureWriter mainFixtureEnv
      mainFixtureConstFn (some ⟨[ConstOrCell.Const 5], sp0⟩)
      mainFixtureWriter mainFixtureEnv.nest hblock2).2.2.2.1
      sp0 ⟨[ConstOrCell.Const 5], sp0⟩ 5 rfl rfl (by simp)⟩

/-- Claim C6 as amended: the `ArrayAccess` branch of `compute_expr`. A
non-constant index is `ExpectedConstant`; a constant index that does not fit
in a 64-bit `usize` panics in `try_into().unwrap()`; a fitting index at or
past the declared length `len` is `ArrayIndexOutOfBounds(idx, len - 1)` when
`len` is nonzero, and panics in the `len - 1` checked subtraction when
`len = 0`; a passing index whose flattened sub-range exceeds the physical
length of the base `Var` fails the defensive
`ArrayIndexOutOfBounds(start, physical length)` check; otherwise the result
narrows the base to offset `idx * element_size` and length `element_size`. -/
theorem compute_expr_array_access (s : CircuitWriter) (fn_env : FnEnv)
    (array idxe : Expr) (span : Span) (var idx_var : VarOrRef)
    (s1 s2 : CircuitWriter)
    (harr : s.compute_expr fn_env array = .ok (some var, s1))
    (hidx : s1.compute_expr fn_env idxe = .ok (some idx_var, s2)) :
    (idx_var.constant = none →
      s.compute_expr fn_env (.ArrayAccess array idxe span) =
        .error (.user .ExpectedConstant span)) ∧
    (∀ (c : Field),
      idx_var.constant = some c →
      USIZE_MAX < c.val →
      s.compute_expr fn_env (.ArrayAccess array idxe span) =
        .error (.panicked "called Option::unwrap() on a None value")) ∧
    (∀ (c : Field) (ty : TyKind) (alen : Nat),
      idx_var.constant = some c →
      c.val ≤ USIZE_MAX →
      s2.typed.expr_type array = some (.Array ty alen) →
      alen ≠ 0 →
      alen ≤ c.val →
      s.compute_expr fn_env (.ArrayAccess array idxe span) =
        .error (.user (.ArrayIndexOutOfBounds c.val (alen - 1)) span)) ∧
    (∀ (c : Field) (ty : TyKind),
      idx_var.constant = some c →
      c.val ≤ USIZE_MAX →
      s2.typed.expr_type array = some (.Array ty 0) →
      s.compute_expr fn_env (.ArrayAccess array idxe span) =
        .error (.panicked "attempt to subtract with overflow")) ∧
    (∀ (c : Field) (ty : TyKind) (alen : Nat),
      idx_var.constant = some c →
      c.val ≤ USIZE_MAX →
      s2.typed.expr_type array = some (.Array ty alen) →
      c.val < alen →
      (var.len ≤ c.val * s2.typed.size_of ty ∨
        var.len < c.val * s2.typed.size_of ty + s2.typed.size_of ty) →
      s.compute_expr fn_env (.ArrayAccess array idxe span) =
        .error (.user (.ArrayIndexOutOfBounds (c.val * s2.typed.size_of ty)
          var.len) span)) ∧
    (∀ (c : Field) (ty : TyKind) (alen : Nat),
      idx_var.constant = some c →
      c.val ≤ USIZE_MAX →
      s2.typed.expr_type array = some (.Array ty alen) →
      c.val < alen →
      c.val * s2.typed.size_of ty < var.len →
      c.val * s2.typed.size_of ty + s2.typed.size_of ty ≤ var.len →
      s.compute_expr fn_env (.ArrayAccess array idxe span) =
        .ok (some (var.narrow (c.val * s2.typed.size_of ty)
          (s2.typed.size_of ty)), s2)) := by
  refine ⟨?_, ?_, ?_, ?_, ?_, ?_⟩
  · intro hconst
    simp only [CircuitWriter.compute_expr, harr, hidx, hconst]
  · intro c hconst husize
    simp only [CircuitWriter.compute_expr, harr, hidx, hconst]
    rw [if_pos husize]
  · intro c ty alen hconst husize htype halen0 hle
    simp only [CircuitWriter.compute_expr, harr, hidx, hconst]
    rw [if_neg (by omega)]
    simp only [htype]
    rw [if_pos hle, if_neg halen0]
  · intro c ty hconst husize htype
    simp only [CircuitWriter.compute_expr, harr, hidx, hconst]
    rw [if_neg (by omega)]
    simp only [htype]
    simp
  · intro c ty alen hconst husize htype hlt hphys
    simp only [CircuitWriter.compute_expr, harr, hidx, hconst]
    rw [if_neg (by omega)]
    simp only [htype]
    rw [if_neg (by omega), if_pos hphys]
  · intro c ty alen hconst husize htype hlt h1 h2
    simp only [CircuitWriter.compute_expr, harr, hidx, hconst]
    rw [if_neg (by omega)]
    simp only [htype]
    rw [if_neg (by omega), if_neg (by omega)]

lemma field_range_missing (size_of : TyKind → Nat) (target : String) :
    ∀ (fields : List (String × TyKind)), (∀ p ∈ fields, p.1 ≠ target) →
    field_range size_of target fields =
      ((fields.map (fun p => size_of p.2)).sum, 0) := by
  intro fields
  induction fields with
  | nil =>
    intro _
    rfl
  | cons f rest ih =>
    intro hmiss
    obtain ⟨fn, ft⟩ := f
    have hne : fn ≠ target := hmiss (fn, ft) (by simp)
    simp only [field_range, if_neg hne, ih (fun p hp => hmiss p (by simp [hp]))]
    simp

/-- Claim C10: a `FieldAccess` whose field does not occur in the struct's
declared field list raises no error: the accumulated offset is the sum of all
field sizes and the length stays 0, so the base is narrowed to an empty
(zero-length) `Var` or reference. -/
theorem compute_expr_field_access_missing (s : CircuitWriter) (fn_env : FnEnv)
    (lhs : Expr) (fieldName : String) (span : Span) (lhs_var : VarOrRef)
    (s1 : CircuitWriter) (m : Option String) (sname : String) (si : StructInfo)
    (hlhs : s.compute_expr fn_env lhs = .ok (some lhs_var, s1))
    (htype : s1.typed.expr_type lhs = some (.Custom m sname))
    (hsi : s1.typed.struct_infos sname = some si)
    (hmissing : ∀ p ∈ si.fields, p.1 ≠ fieldName) :
    s.compute_expr fn_env (.FieldAccess lhs fieldName span) =
      .ok (some (lhs_var.narrow
        ((si.fields.map (fun p => s1.typed.size_of p.2)).sum) 0), s1) ∧
    (lhs_var.narrow
      ((si.fields.map (fun p => s1.typed.size_of p.2)).sum) 0).len = 0 := by
  constructor
  · simp only [CircuitWriter.compute_expr, hlhs, htype, hsi,
      field_range_missing s1.typed.size_of fieldName si.fields hmissing]
  · match lhs_var with
    | .Var v => simp [VarOrRef.narrow, VarOrRef.len]
    | .Ref n st l => simp [VarOrRef.narrow, VarOrRef.len]

/-- The expression `arr`, a length-3 array of Fields in scope. -/
def arrExpr : Expr := .Variable none "arr" sp0

/-- An oracle typing `arr` as `[Field; 3]`, every type of size 1. -/
def arrTC : TypeChecker :=
  ⟨fun e => if e = arrExpr then some (.Array .Field 3) else none,
    fun _ => 1, fun _ => none⟩

/-- The flattened value of `arr`: wires 0, 1, 2. -/
def arrVar : Var :=
  ⟨[ConstOrCell.Cell ⟨0, sp0⟩, ConstOrCell.Cell ⟨1, sp0⟩,
    ConstOrCell.Cell ⟨2, sp0⟩], sp0⟩

/-- A scope binding `arr`. -/
def arrEnv : FnEnv :=
  ⟨[[("arr", ⟨arrVar, false, some (.Array .Field 3)⟩)]]⟩

/-- Witness for claim C6: indexing the length-3 array at 3 fails with bound 2;
indexing at 2 succeeds and narrows to the third element. -/
theorem compute_expr_array_access_witness :
    (CircuitWriter.init arrTC).compute_expr arrEnv
        (.ArrayAccess arrExpr (.BigInt "3" sp0) sp0) =
      .error (.user (.ArrayIndexOutOfBounds 3 2) sp0) ∧
    (CircuitWriter.init arrTC).compute_expr arrEnv
        (.ArrayAccess arrExpr (.BigInt "2" sp0) sp0) =
      .ok (some (VarOrRef.Var ⟨[ConstOrCell.Cell ⟨2, sp0⟩], sp0⟩),
        CircuitWriter.init arrTC) := by
  have hat : is_type "arr" = false := by decide
  have harr : (CircuitWriter.init arrTC).compute_expr arrEnv arrExpr =
      .ok (some (VarOrRef.Var arrVar), CircuitWriter.init arrTC) := by
    simp [CircuitWriter.compute_expr, arrExpr, hat, FnEnv.get_var,
      lookupFrames, lookupVar, arrEnv, VarOrRef.from_var_info]
  have hp3 : parseDecimal "3" = some 3 := by decide
  have hp2 : parseDecimal "2" = some 2 := by decide
  have hlt3 : (3 : Nat) < fieldPrime := by decide
  have hlt2 : (2 : Nat) < fieldPrime := by decide
  have hidx3 : (CircuitWriter.init arrTC).compute_expr arrEnv (.BigInt "3" sp0) =
      .ok (some (VarOrRef.Var ⟨[ConstOrCell.Const 3], sp0⟩),
        CircuitWriter.init arrTC) := by
    simp [CircuitWriter.compute_expr, hp3, hlt3, Var.new_constant]
  have hidx2 : (CircuitWriter.init arrTC).compute_expr arrEnv (.BigInt "2" sp0) =
      .ok (some (VarOrRef.Var ⟨[ConstOrCell.Const 2], sp0⟩),
        CircuitWriter.init arrTC) := by
    simp [CircuitWriter.compute_expr, hp2, hlt2, Var.new_constant]
  have h3v : ((3 : Field)).val = 3 := by decide
  have h2v : ((2 : Field)).val = 2 := by decide
  have htype : (CircuitWriter.init arrTC).typed.expr_type arrExpr =
      some (.Array .Field 3) := by
    simp [CircuitWriter.init, arrTC]
  constructor
  · have h := (compute_expr_array_access (CircuitWriter.init arrTC) arrEnv
      arrExpr (.BigInt "3" sp0) sp0 (VarOrRef.Var arrVar)
      (VarOrRef.Var ⟨[ConstOrCell.Const 3], sp0⟩)
      (CircuitWriter.init arrTC) (CircuitWriter.init arrTC)
      harr hidx3).2.2.1 3 .Field 3 rfl (by rw [h3v]; decide) htype
      (by decide) (by rw [h3v])
    simpa [h3v] using h
  · have h := (compute_expr_array_access (CircuitWriter.init arrTC) arrEnv
      arrExpr (.BigInt "2" sp0) sp0 (VarOrRef.Var arrVar)
      (VarOrRef.Var ⟨[ConstOrCell.Const 2], sp0⟩)
      (CircuitWriter.init arrTC) (CircuitWriter.init arrTC)
      harr hidx2).2.2.2.2.2 2 .Field 3 rfl (by rw [h2v]; decide) htype
      (by rw [h2v]; omega)
      (by simp [h2v, CircuitWriter.init, arrTC, VarOrRef.len, arrVar])
      (by simp [h2v, CircuitWriter.init, arrTC, VarOrRef.len, arrVar])
    simpa [h2v, CircuitWriter.init, arrTC, VarOrRef.narrow, arrVar] using h

/-- Counterexample to claim C6 as frozen: on a 64-bit target, indexing the
length-3 array at the compile-time constant `2^64` does not fail with
`ArrayIndexOutOfBounds(idx, len - 1)` as the claim states for every index at
or past the declared length — the `usize` conversion of the index
(`idx.try_into().unwrap()`) panics first. -/
theorem compute_expr_array_access_huge_index :
    (CircuitWriter.init arrTC).compute_expr arrEnv
        (.ArrayAccess arrExpr (.BigInt "18446744073709551616" sp0) sp0) =
      .error (.panicked "called Option::unwrap() on a None value") ∧
    (CircuitWriter.init arrTC).compute_expr arrEnv
        (.ArrayAccess arrExpr (.BigInt "18446744073709551616" sp0) sp0) ≠
      .error (.user (.ArrayIndexOutOfBounds 18446744073709551616 2) sp0) := by
  have hat : is_type "arr" = false := by decide
  have hpH : parseDecimal "18446744073709551616" = some 18446744073709551616 := by
    decide
  have hltH : (18446744073709551616 : Nat) < fieldPrime := by decide
  have hvH : ((18446744073709551616 : Field)).val = 18446744073709551616 := by
    decide
  have husize : USIZE_MAX < ((18446744073709551616 : Field)).val := by
    rw [hvH]
    decide
  have h : (CircuitWriter.init arrTC).compute_expr arrEnv
      (.ArrayAccess arrExpr (.BigInt "18446744073709551616" sp0) sp0) =
      .error (.panicked "called Option::unwrap() on a None value") := by
    simp [CircuitWriter.compute_expr, arrExpr, hat, FnEnv.get_var,
      lookupFrames, lookupVar, arrEnv, VarOrRef.from_var_info, hpH, hltH,
      Var.new_constant, VarOrRef.constant, husize]
  refine ⟨h, ?_⟩
  rw [h]
  simp

/-- The expression `st`, a two-Field struct value in scope. -/
def stExpr : Expr := .Variable none "st" sp0

/-- An oracle typing `st` as the struct `Thing { a: Field, b: Field }`. -/
def stTC : TypeChecker :=
  ⟨fun e => if e = stExpr then some (.Custom none "Thing") else none,
    fun _ => 1,
    fun n => if n = "Thing" then some ⟨[("a", .Field), ("b", .Field)]⟩ else none⟩

/-- The flattened value of `st`: wires 0 and 1. -/
def stVar : Var :=
  ⟨[ConstOrCell.Cell ⟨0, sp0⟩, ConstOrCell.Cell ⟨1, sp0⟩], sp0⟩

/-- A scope binding `st`. -/
def stEnv : FnEnv :=
  ⟨[[("st", ⟨stVar, false, some (.Custom none "Thing")⟩)]]⟩

/-- Witness for claim C10: accessing the missing field `zz` of `Thing` raises
no error and yields the empty zero-length `Var` at offset 2. -/
theorem compute_expr_field_access_missing_witness :
    (CircuitWriter.init stTC).compute_expr stEnv
        (.FieldAccess stExpr "zz" sp0) =
      .ok (some (VarOrRef.Var ⟨[], sp0⟩), CircuitWriter.init stTC) ∧
    (VarOrRef.Var (⟨[], sp0⟩ : Var)).len = 0 := by
  have hst : is_type "st" = false := by decide
  have hlhs : (CircuitWriter.init stTC).compute_expr stEnv stExpr =
      .ok (some (VarOrRef.Var stVar), CircuitWriter.init stTC) := by
    simp [CircuitWriter.compute_expr, stExpr, hst, FnEnv.get_var,
      lookupFrames, lookupVar, stEnv, VarOrRef.from_var_info]
  have h := compute_expr_field_access_missing (CircuitWriter.init stTC) stEnv
    stExpr "zz" sp0 (VarOrRef.Var stVar) (CircuitWriter.init stTC)
    none "Thing" ⟨[("a", .Field), ("b", .Field)]⟩ hlhs
    (by simp [CircuitWriter.init, stTC])
    (by simp [CircuitWriter.init, stTC])
    (by decide)
  refine ⟨?_, rfl⟩
  have h1 := h.1
  simpa [CircuitWriter.init, stTC, VarOrRef.narrow, stVar] using h1

/-- One loop iteration, written following the claim's words: push a fresh
scope frame, bind the loop variable immutably to the iteration's `Field`
constant, compile the body block, discard its returned value, and pop a
scope frame. Used as the specification side of claim C7. -/
def loopIterSpec (v : String) (vs : Span) (body : List Stmt)
    (p : CircuitWriter × FnEnv) (ii : Nat) :
    Except CompileError (CircuitWriter × FnEnv) :=
  match (p.2.nest).add_var v ⟨Var.new_constant (ii : Field) vs, false,
      some TyKind.Field⟩ with
  | .error e => .error e
  | .ok env =>
    match p.1.compile_block env body with
    | .error e => .error e
    | .ok (_, s, env) => .ok (s, env.pop)

lemma compile_for_loop_eq_foldlM (v : String) (vs : Span) (body : List Stmt) :
    ∀ (iters : List Nat) (s : CircuitWriter) (env : FnEnv),
    CircuitWriter.compile_for_loop v vs iters body s env =
      iters.foldlM (loopIterSpec v vs body) (s, env) := by
  intro iters
  induction iters with
  | nil =>
    intro s env
    simp [CircuitWriter.compile_for_loop, Pure.pure, Except.pure]
  | cons ii rest ih =>
    intro s env
    rw [CircuitWriter.compile_for_loop, List.foldlM_cons]
    cases h1 : (env.nest).add_var v ⟨Var.new_constant (ii : Field) vs, false,
        some TyKind.Field⟩ with
    | error e => simp [loopIterSpec, h1, Bind.bind, Except.bind]
    | ok env2 =>
      cases h2 : s.compile_block env2 body with
      | error e => simp [loopIterSpec, h1, h2, Bind.bind, Except.bind]
      | ok t =>
        obtain ⟨res, s2, env3⟩ := t
        simp [loopIterSpec, h1, h2, ih, Bind.bind, Except.bind]

/-- Claim C7: compiling `ForLoop{var, range, body}` folds the per-iteration
step over exactly the `range.stop - range.start` iteration values in
sequence — each pushing a fresh frame, binding the loop variable to that
iteration's immutable `Field` constant, compiling the body block and popping
a frame — and the loop statement itself always yields no value: whatever a
body block returned is discarded. -/
theorem compile_stmt_for_loop_unrolls (s : CircuitWriter) (fn_env : FnEnv)
    (v : String) (vs : Span) (r : RangeT) (body : List Stmt) (span : Span) :
    s.compile_stmt fn_env (.ForLoop v vs r body span) =
      (r.range.foldlM (loopIterSpec v vs body) (s, fn_env)).map
        (fun p => (none, p.1, p.2)) ∧
    r.range.length = r.stop - r.start ∧
    (∀ res s' env', s.compile_stmt fn_env (.ForLoop v vs r body span) =
      .ok (res, s', env') → res = none) := by
  have h1 : s.compile_stmt fn_env (.ForLoop v vs r body span) =
      (r.range.foldlM (loopIterSpec v vs body) (s, fn_env)).map
        (fun p => (none, p.1, p.2)) := by
    rw [CircuitWriter.compile_stmt, compile_for_loop_eq_foldlM]
    cases hf : r.range.foldlM (loopIterSpec v vs body) (s, fn_env) with
    | error e => simp [Except.map]
    | ok p => simp [Except.map]
  refine ⟨h1, by simp [RangeT.range], ?_⟩
  intro res s' env' heq
  rw [h1] at heq
  cases hf : r.range.foldlM (loopIterSpec v vs body) (s, fn_env) with
  | error e =>
    rw [hf] at heq
    cases heq
  | ok p =>
    rw [hf] at heq
    simp [Except.map] at heq
    exact heq.1.symm

/-!
Claim C3: the wiring-table invariant of `add_gate`.
-/

/-- The occurrences of wire `i` in one row's slot list, starting at column
`col`: each as its `(row, col)` cell paired with the occupying `CellVar`'s
span, in column order. -/
def rowOccsAux (row i : Nat) : Nat → List (Option CellVar) → List (Cell × Span)
  | _, [] => []
  | col, none :: rest => rowOccsAux row i (col + 1) rest
  | col, some var :: rest =>
    if var.index = i then (⟨row, col⟩, var.span) :: rowOccsAux row i (col + 1) rest
    else rowOccsAux row i (col + 1) rest

/-- The cells of one row in which wire `i` appears, in column order. -/
def rowCells (row : Nat) (vars : List (Option CellVar)) (i : Nat) : List Cell :=
  (rowOccsAux row i 0 vars).map Prod.fst

/-- The cells of a row list in which wire `i` appears, rows numbered from
`row`, in order of occurrence (row-major). -/
def cellsOfAux (i : Nat) : Nat → List (List (Option CellVar)) → List Cell
  | _, [] => []
  | row, r :: rest => rowCells row r i ++ cellsOfAux i (row + 1) rest

/-- Every `(row, col)` cell of the emitted trace in which wire `i` appears,
in order of occurrence. -/
def cellsOf (rows : List (List (Option CellVar))) (i : Nat) : List Cell :=
  cellsOfAux i 0 rows

/-- The relation claimed between a wire's occurrence cells and its wiring
entry: unreferenced wires have no entry, a wire in exactly one cell is
`NotWired` at that cell, and a wire in two or more cells is `Wired` with
exactly those cells in order. -/
def entryRel (cs : List Cell) (e : Option Wiring) : Prop :=
  match cs with
  | [] => e = none
  | [c] => e = some (.NotWired c)
  | cs => ∃ l, e = some (.Wired l) ∧ l.map Prod.fst = cs

lemma wireRowAux_entry (row i : Nat) (gspan : Span) :
    ∀ (vars : List (Option CellVar)) (col : Nat) (w : Nat → Option Wiring),
    wireRowAux row gspan col vars w i =
      (rowOccsAux row i col vars).foldl
        (fun e p => some (cellStep e p.1 p.2 gspan)) (w i) := by
  intro vars
  induction vars with
  | nil =>
    intro col w
    rfl
  | cons ov rest ih =>
    intro col w
    match ov with
    | none =>
      rw [wireRowAux, rowOccsAux]
      exact ih (col + 1) w
    | some var =>
      rw [wireRowAux, rowOccsAux]
      by_cases hvi : var.index = i
      · rw [if_pos hvi, List.foldl_cons, ih (col + 1) (wireCell w var ⟨row, col⟩ gspan)]
        congr 1
        simp only [wireCell]
        rw [if_pos hvi.symm, hvi]
      · rw [if_neg hvi, ih (col + 1) (wireCell w var ⟨row, col⟩ gspan)]
        congr 1
        simp only [wireCell]
        rw [if_neg (fun h => hvi h.symm)]

lemma entryRel_foldl (gspan : Span) :
    ∀ (ds : List (Cell × Span)) (cs : List Cell) (e : Option Wiring),
    entryRel cs e →
    entryRel (cs ++ ds.map Prod.fst)
      (ds.foldl (fun e p => some (cellStep e p.1 p.2 gspan)) e) := by
  intro ds
  induction ds with
  | nil =>
    intro cs e h
    simpa using h
  | cons d rest ih =>
    intro cs e h
    have hstep : entryRel (cs ++ [d.1]) (some (cellStep e d.1 d.2 gspan)) := by
      match cs, h with
      | [], h =>
        rw [entryRel] at h
        subst h
        simp [cellStep, entryRel]
      | [c], h =>
        rw [entryRel] at h
        subst h
        refine ⟨[(c, d.2), (d.1, gspan)], ?_, by simp⟩
        simp [cellStep]
      | c1 :: c2 :: cs', h =>
        obtain ⟨l, he, hmap⟩ := h
        subst he
        refine ⟨l ++ [(d.1, gspan)], by simp [cellStep], ?_⟩
        simp [hmap]
    have := ih (cs ++ [d.1]) (some (cellStep e d.1 d.2 gspan)) hstep
    simpa [List.append_assoc] using this

lemma cellsOfAux_append (i : Nat) :
    ∀ (rows : List (List (Option CellVar))) (row0 : Nat) (r : List (Option CellVar)),
    cellsOfAux i row0 (rows ++ [r]) =
      cellsOfAux i row0 rows ++ rowCells (row0 + rows.length) r i := by
  intro rows
  induction rows with
  | nil =>
    intro row0 r
    simp [cellsOfAux]
  | cons hd rest ih =>
    intro row0 r
    simp only [List.cons_append, cellsOfAux, List.append_eq, ih (row0 + 1) r,
      List.append_assoc, List.length_cons]
    have harith : row0 + 1 + rest.length = row0 + (rest.length + 1) := by omega
    rw [harith]

/-- The invariant maintained by `add_gate`: the gate list and the trace have
the same number of rows, and every wire's wiring entry matches its occurrence
cells as the claim states. -/
def WiringInv (s : CircuitWriter) : Prop :=
  s.gates.length = s.rows_of_vars.length ∧
  ∀ i, entryRel (cellsOf s.rows_of_vars i) (s.wiring i)

lemma add_gate_preserves_inv (s : CircuitWriter) (note : String)
    (typ : GateKind) (vars : List (Option CellVar)) (coeffs : List Field)
    (span : Span) (s' : CircuitWriter)
    (h : s.add_gate note typ vars coeffs span = some s')
    (hinv : WiringInv s) : WiringInv s' := by
  rw [CircuitWriter.add_gate] at h
  split at h
  · cases h
    constructor
    · simp [hinv.1]
    · intro i
      simp only [cellsOf, cellsOfAux_append i s.rows_of_vars 0 vars, Nat.zero_add]
      rw [wireRow, wireRowAux_entry, hinv.1]
      exact entryRel_foldl span (rowOccsAux s.rows_of_vars.length i 0 vars)
        (cellsOfAux i 0 s.rows_of_vars) (s.wiring i) (hinv.2 i)
  · cases h

/-- One `add_gate` request. -/
structure GateReq where
  note : String
  typ : GateKind
  vars : List (Option CellVar)
  coeffs : List Field
  span : Span

/-- A sequence of `add_gate` calls applied in order. -/
def applyGates (s : CircuitWriter) : List GateReq → Option CircuitWriter
  | [] => some s
  | r :: rest =>
    match s.add_gate r.note r.typ r.vars r.coeffs r.span with
    | none => none
    | some s' => applyGates s' rest

lemma applyGates_inv :
    ∀ (reqs : List GateReq) (s s' : CircuitWriter),
    WiringInv s → applyGates s reqs = some s' → WiringInv s' := by
  intro reqs
  induction reqs with
  | nil =>
    intro s s' hinv h
    cases h
    exact hinv
  | cons r rest ih =>
    intro s s' hinv h
    rw [applyGates] at h
    cases hg : s.add_gate r.note r.typ r.vars r.coeffs r.span with
    | none =>
      rw [hg] at h
      cases h
    | some s1 =>
      rw [hg] at h
      exact ih s1 s' (add_gate_preserves_inv s _ _ _ _ _ s1 hg hinv) h

/-- Claim C3: after any sequence of `add_gate` calls from a fresh writer, the
wiring table satisfies: a wire occupying no cell has no entry; a wire
occupying exactly one non-empty cell is `NotWired` at that cell; a wire
occupying two or more cells is `Wired` with exactly those `(row, col)` cells,
in order of occurrence. -/
theorem add_gate_wiring_closure (typed : TypeChecker) (reqs : List GateReq)
    (s' : CircuitWriter)
    (h : applyGates (CircuitWriter.init typed) reqs = some s') (i : Nat) :
    entryRel (cellsOf s'.rows_of_vars i) (s'.wiring i) := by
  have hinit : WiringInv (CircuitWriter.init typed) := by
    constructor
    · rfl
    · intro i
      rfl
  exact (applyGates_inv reqs (CircuitWriter.init typed) s' hinit h).2 i

/-- Two gate requests sharing wire 5 (wire 7 appears once). -/
def c3reqs : List GateReq :=
  [⟨"g1", GateKind.DoubleGeneric, [some ⟨5, sp0⟩], [1], sp0⟩,
   ⟨"g2", GateKind.DoubleGeneric, [none, some ⟨5, sp0⟩, some ⟨7, sp0⟩], [], sp0⟩]

/-- The writer after the two requests of `c3reqs`. -/
def c3state : CircuitWriter :=
  (applyGates (CircuitWriter.init emptyTC) c3reqs).getD (CircuitWriter.init emptyTC)

/-- Witness for claim C3: the wiring relation at wire 5 of the two-gate
trace. -/
theorem add_gate_wiring_closure_witness :
    entryRel (cellsOf c3state.rows_of_vars 5) (c3state.wiring 5) :=
  add_gate_wiring_closure emptyTC c3reqs c3state rfl 5

end Noname
